import Mathlib

/-!
Verification of `bcbb/nextgen`: a shallow embedding in Lean 4 of
`bcbio/solexa/flowcell.py` and `scripts/project_analysis_setup.py`,
together with theorems settling the specification claims.

Strings are modelled by Lean `String`; most computation is done on the
underlying `List Char` (`String.data`), which mirrors Python `str`
operations character by character.  Filesystem state is modelled as the
list of existing paths; `glob.glob` is modelled as a filter of that list
by a componentwise pattern matcher (`*` and `?` wildcards, as used by
the repository's patterns).  Fallible code returns `Option` or an
explicit outcome type.
-/

/-! ## Character-level utilities shared by the embeddings -/

/-- Characters treated as whitespace by Python's `int(str)` stripping. -/
def isPySpace (c : Char) : Bool :=
  c = ' ' || c = '\t' || c = '\n' || c = '\r' || c = '\x0b' || c = '\x0c'

/-- `str.split(sep)` for a one-character separator, on character lists.
`splitCh sep "" = [""]` and empty fields are kept, as in Python. -/
def splitCh (sep : Char) : List Char → List (List Char)
  | [] => [[]]
  | c :: cs =>
    if c = sep then [] :: splitCh sep cs
    else match splitCh sep cs with
      | [] => [[c]]
      | r :: rs => (c :: r) :: rs

/-- The tail component of `os.path.split`: everything after the last `/`. -/
def pyBasenameL (cs : List Char) : List Char :=
  (cs.reverse.takeWhile (fun c => c ≠ '/')).reverse

/-- `os.path.basename` on `String`s. -/
def pyBasename (s : String) : String := ⟨pyBasenameL s.data⟩

/-- `p.endswith(("XX", "xx"))`: the last two characters are `XX` or `xx`.
On the reversed list the last character comes first. -/
def pyEndsXXL (cs : List Char) : Bool :=
  match cs.reverse with
  | c :: d :: _ => (c = 'X' && d = 'X') || (c = 'x' && d = 'x')
  | _ => false

/-- `str.strip()` as used by Python's `int`: drop leading and trailing
whitespace. -/
def pyStripL (cs : List Char) : List Char :=
  ((cs.dropWhile isPySpace).reverse.dropWhile isPySpace).reverse

/-- Whether Python 2's `int(p)` succeeds on the string `p`: after
stripping whitespace, an optional single sign followed by one or more
decimal digits. -/
def pyIntOkL (cs : List Char) : Bool :=
  match pyStripL cs with
  | [] => false
  | c :: rest =>
    if c = '+' || c = '-' then !rest.isEmpty && rest.all Char.isDigit
    else (c :: rest).all Char.isDigit

/-! ## `flowcell.get_flowcell_info`

Source: `nextgen/bcbio/solexa/flowcell.py`, lines 10-30.  The loop body
is `scanToken`; raising `ValueError` is modelled as returning `none`. -/

/-- One iteration of the token loop of `get_flowcell_info`: a token
ending in `XX`/`xx` (unconditionally) overwrites the name; otherwise a
6-character token accepted by `int` overwrites the date. -/
def scanToken (acc : Option (List Char) × Option (List Char)) (p : List Char) :
    Option (List Char) × Option (List Char) :=
  if pyEndsXXL p then (some p, acc.2)
  else if p.length == 6 && pyIntOkL p then (acc.1, some p)
  else acc

/-- `get_flowcell_info(fc_dir)`: split the final path segment on `_`,
scan the tokens, and return `(name, date)`; `none` models the raised
`ValueError` when either remains unresolved. -/
def get_flowcell_info (fc_dir : String) : Option (String × String) :=
  match (splitCh '_' (pyBasenameL fc_dir.data)).foldl scanToken (none, none) with
  | (some name, some date) => some (⟨name⟩, ⟨date⟩)
  | _ => none

/-! ### Facts about the token scan -/

theorem getLast?_cons_or {α : Type} (p : α) (fr : List α) (a : Option α) :
    ((p :: fr).getLast?).or a = (fr.getLast?).or (some p) := by
  cases fr with
  | nil => simp
  | cons q qs =>
    rw [List.getLast?_cons_cons, List.getLast?_eq_getLast (q :: qs) (by simp)]
    simp [Option.or]

theorem foldl_scan_fst (l : List (List Char))
    (acc : Option (List Char) × Option (List Char)) :
    (l.foldl scanToken acc).1 = ((l.filter pyEndsXXL).getLast?).or acc.1 := by
  induction l generalizing acc with
  | nil => simp
  | cons p ps ih =>
    rw [List.foldl_cons, List.filter_cons, ih]
    by_cases h : pyEndsXXL p = true
    · rw [if_pos h]
      have hval : (scanToken acc p).1 = some p := by simp [scanToken, h]
      rw [hval, getLast?_cons_or]
    · rw [if_neg h]
      have hval : (scanToken acc p).1 = acc.1 := by
        unfold scanToken
        rw [if_neg h]
        by_cases h2 : (p.length == 6 && pyIntOkL p) = true
        · rw [if_pos h2]
        · rw [if_neg h2]
      rw [hval]

/-- The predicate under which the loop records a date token. -/
def datePredL (p : List Char) : Bool :=
  !pyEndsXXL p && (p.length == 6 && pyIntOkL p)

theorem foldl_scan_snd (l : List (List Char))
    (acc : Option (List Char) × Option (List Char)) :
    (l.foldl scanToken acc).2 = ((l.filter datePredL).getLast?).or acc.2 := by
  induction l generalizing acc with
  | nil => simp
  | cons p ps ih =>
    rw [List.foldl_cons, List.filter_cons, ih]
    by_cases h : pyEndsXXL p = true
    · have hd : datePredL p = false := by simp [datePredL, h]
      rw [hd]
      have hsnd : (scanToken acc p).2 = acc.2 := by
        unfold scanToken
        rw [if_pos h]
      rw [hsnd]
      simp
    · by_cases h2 : (p.length == 6 && pyIntOkL p) = true
      · have hd : datePredL p = true := by
          unfold datePredL
          rw [h2]
          simp [h]
        rw [if_pos hd]
        have hsnd : (scanToken acc p).2 = some p := by
          unfold scanToken
          rw [if_neg h, if_pos h2]
        rw [hsnd, getLast?_cons_or]
      · have hd : datePredL p = false := by
          unfold datePredL
          rw [Bool.eq_false_iff]
          intro hcon
          exact h2 ((Bool.and_eq_true _ _).mp hcon).2
        rw [hd]
        have hsnd : (scanToken acc p).2 = acc.2 := by
          unfold scanToken
          rw [if_neg h, if_neg h2]
        rw [hsnd]
        simp

theorem dropWhile_getLast? {α : Type} (q : α → Bool) (l : List α) :
    l.dropWhile q = [] ∨ (l.dropWhile q).getLast? = l.getLast? := by
  induction l with
  | nil => left; rfl
  | cons c cs ih =>
    by_cases h : q c
    · rw [List.dropWhile_cons_of_pos h]
      rcases ih with h2 | h2
      · left; exact h2
      · cases cs with
        | nil => left; rfl
        | cons d ds =>
          right
          rw [h2, List.getLast?_cons_cons]
    · right
      rw [List.dropWhile_cons_of_neg h]

theorem all_digit_false_of_mem {ch : Char} {l : List Char} (hmem : ch ∈ l)
    (hdig : ch.isDigit = false) : l.all Char.isDigit = false := by
  apply Bool.eq_false_iff.mpr
  intro hall
  have := (List.all_eq_true.mp hall) ch hmem
  rw [hdig] at this
  exact Bool.false_ne_true this

/-- A string accepted by `int` cannot end in `XX`/`xx`: its last
character (untouched by whitespace stripping) would have to be a digit. -/
theorem pyIntOk_not_endsXX (p : List Char) :
    pyEndsXXL p = true → pyIntOkL p = false := by
  intro hxx
  have hlast : p.getLast? = some 'X' ∨ p.getLast? = some 'x' := by
    unfold pyEndsXXL at hxx
    rcases hrev : p.reverse with _ | ⟨c, rest⟩
    · rw [hrev] at hxx; simp at hxx
    · have hc : p.getLast? = some c := by
        have hh := List.head?_reverse p
        rw [hrev] at hh
        simpa using hh.symm
      rcases rest with _ | ⟨d, rest2⟩
      · rw [hrev] at hxx; simp at hxx
      · rw [hrev] at hxx
        simp only [] at hxx
        rcases Bool.or_eq_true_iff.mp hxx with hX | hx
        · left
          rw [hc]
          have := (Bool.and_eq_true _ _).mp hX
          have : c = 'X' := by simpa using this.1
          rw [this]
        · right
          rw [hc]
          have := (Bool.and_eq_true _ _).mp hx
          have : c = 'x' := by simpa using this.1
          rw [this]
  have hXgeneral : ∀ ch : Char, p.getLast? = some ch → isPySpace ch = false →
      Char.isDigit ch = false → pyIntOkL p = false := by
    intro ch hch hsp hdig
    have hstrip : (pyStripL p).getLast? = some ch ∨ pyStripL p = [] := by
      unfold pyStripL
      have h1 : (p.dropWhile isPySpace) = [] ∨
          (p.dropWhile isPySpace).getLast? = p.getLast? :=
        dropWhile_getLast? isPySpace p
      rcases h1 with h1 | h1
      · right; rw [h1]; rfl
      · have h2 : (p.dropWhile isPySpace).reverse.head? = some ch := by
          rw [List.head?_reverse, h1, hch]
        have h3 : (p.dropWhile isPySpace).reverse.dropWhile isPySpace =
            (p.dropWhile isPySpace).reverse := by
          cases hr : (p.dropWhile isPySpace).reverse with
          | nil => rfl
          | cons z zs =>
            rw [hr] at h2
            have hz : z = ch := by simpa using h2
            apply List.dropWhile_cons_of_neg
            rw [hz, hsp]
            simp
        rw [h3, List.reverse_reverse, h1, hch]
        left
        rfl
    rcases hstrip with hs | hs
    · rcases hmatch : pyStripL p with _ | ⟨c0, rest⟩
      · unfold pyIntOkL
        rw [hmatch]
      · rw [hmatch] at hs
        unfold pyIntOkL
        rw [hmatch]
        simp only []
        by_cases hplus : c0 = '+'
        · rw [if_pos (by rw [hplus]; simp)]
          cases rest with
          | nil => simp
          | cons r rs =>
            have hchmem : ch ∈ (r :: rs) := by
              rw [List.getLast?_cons_cons] at hs
              exact List.mem_of_mem_getLast? hs
            rw [all_digit_false_of_mem hchmem hdig]
            simp
        · by_cases hminus : c0 = '-'
          · rw [if_pos (by rw [hminus]; simp)]
            cases rest with
            | nil => simp
            | cons r rs =>
              have hchmem : ch ∈ (r :: rs) := by
                rw [List.getLast?_cons_cons] at hs
                exact List.mem_of_mem_getLast? hs
              rw [all_digit_false_of_mem hchmem hdig]
              simp
          · rw [if_neg (by simp [hplus, hminus])]
            have hchmem : ch ∈ (c0 :: rest) := List.mem_of_mem_getLast? hs
            exact all_digit_false_of_mem hchmem hdig
    · unfold pyIntOkL
      rw [hs]
  rcases hlast with h | h
  · exact hXgeneral 'X' h (by decide) (by decide)
  · exact hXgeneral 'x' h (by decide) (by decide)

/-- The date filter may drop the `not ends in XX` conjunct: a token
accepted by `int` never ends in `XX`/`xx`. -/
theorem filter_date_eq (l : List (List Char)) :
    l.filter datePredL = l.filter (fun p => p.length == 6 && pyIntOkL p) := by
  apply List.filter_congr
  intro p _
  unfold datePredL
  by_cases h : pyIntOkL p
  · have : pyEndsXXL p = false := by
      by_cases h2 : pyEndsXXL p
      · rw [pyIntOk_not_endsXX p h2] at h; exact absurd h (by simp)
      · simpa using h2
    rw [this]
    simp
  · simp only [Bool.not_eq_true] at h
    rw [h]
    simp

/-- Full characterization of `get_flowcell_info`: the name is the LAST
token ending in `XX`/`xx` and the date is the LAST 6-character token
accepted by `int`; the parse fails exactly when either list of
candidates is empty. -/
theorem get_flowcell_info_eq (fc_dir : String) :
    get_flowcell_info fc_dir =
      match ((splitCh '_' (pyBasenameL fc_dir.data)).filter pyEndsXXL).getLast?,
          ((splitCh '_' (pyBasenameL fc_dir.data)).filter
            (fun p => p.length == 6 && pyIntOkL p)).getLast? with
      | some nm, some dt => some (⟨nm⟩, ⟨dt⟩)
      | _, _ => none := by
  have h1 := foldl_scan_fst (splitCh '_' (pyBasenameL fc_dir.data)) (none, none)
  have h2 := foldl_scan_snd (splitCh '_' (pyBasenameL fc_dir.data)) (none, none)
  rw [Option.or_none] at h1 h2
  rw [filter_date_eq] at h2
  unfold get_flowcell_info
  rw [← h1, ← h2]
  rcases hp : (splitCh '_' (pyBasenameL fc_dir.data)).foldl scanToken (none, none)
    with ⟨n, d⟩
  cases n <;> cases d <;> rfl

/-- C1 fails as stated: `110215_-12345_ABXX` has exactly one token
ending in `XX`/`xx` and exactly one 6-digit numeric token (`110215`),
yet the returned date is `-12345` (a length-6 token accepted by `int`),
not `110215`. -/
theorem c1_counterexample :
    get_flowcell_info "110215_-12345_ABXX" = some ("ABXX", "-12345") ∧
    ((splitCh '_' (pyBasenameL ("110215_-12345_ABXX").data)).filter
      pyEndsXXL).length = 1 ∧
    (splitCh '_' (pyBasenameL ("110215_-12345_ABXX").data)).filter
      (fun p => p.length == 6 && p.all Char.isDigit) = ["110215".data] ∧
    ("-12345" : String) ≠ "110215" := by
  refine ⟨by decide, by decide, by decide, by decide⟩

/-- C1 (amended): if the final path segment has exactly one token ending
in `XX`/`xx` and exactly one 6-character token accepted by Python's
`int`, `get_flowcell_info` returns exactly that pair. -/
theorem c1_amended (fc_dir : String) (nm dt : List Char)
    (hn : (splitCh '_' (pyBasenameL fc_dir.data)).filter pyEndsXXL = [nm])
    (hd : (splitCh '_' (pyBasenameL fc_dir.data)).filter
      (fun p => p.length == 6 && pyIntOkL p) = [dt]) :
    get_flowcell_info fc_dir = some (⟨nm⟩, ⟨dt⟩) := by
  rw [get_flowcell_info_eq, hn, hd]
  rfl

/-- Witness for C1: the spec's own example `110215_AB0023XX_results`
parses to name `AB0023XX` and date `110215`. -/
theorem c1_amended_witness :
    get_flowcell_info "110215_AB0023XX_results" = some ("AB0023XX", "110215") := by
  have h := c1_amended "110215_AB0023XX_results" ("AB0023XX").data ("110215").data
    (by decide) (by decide)
  simpa using h

/-- C4 fails as stated: in `110215_AAXX_BBXX` the first token ending in
`XX` is `AAXX`, but the parser returns `BBXX` (the last one). -/
theorem c4_counterexample :
    get_flowcell_info "110215_AAXX_BBXX" = some ("BBXX", "110215") ∧
    ((splitCh '_' (pyBasenameL ("110215_AAXX_BBXX").data)).filter
      pyEndsXXL).head? = some ("AAXX").data ∧
    ("AAXX" : String) ≠ "BBXX" := by
  refine ⟨by decide, by decide, by decide⟩

/-- C4 (amended): the LAST qualifying token wins for each category:
`get_flowcell_info` returns the pair of the last token ending in
`XX`/`xx` and the last 6-character token accepted by `int`, failing if
either is missing. -/
theorem c4_last_token_wins (fc_dir : String) :
    get_flowcell_info fc_dir =
      match ((splitCh '_' (pyBasenameL fc_dir.data)).filter pyEndsXXL).getLast?,
          ((splitCh '_' (pyBasenameL fc_dir.data)).filter
            (fun p => p.length == 6 && pyIntOkL p)).getLast? with
      | some nm, some dt => some (⟨nm⟩, ⟨dt⟩)
      | _, _ => none :=
  get_flowcell_info_eq fc_dir

/-- C6: the parse fails (raises `ValueError`) if and only if, after
scanning all tokens of the final path segment, no token ends in
`XX`/`xx`, or no 6-character token parses as an integer. -/
theorem c6_parse_failure_iff (fc_dir : String) :
    get_flowcell_info fc_dir = none ↔
      (∀ p ∈ splitCh '_' (pyBasenameL fc_dir.data), pyEndsXXL p = false) ∨
      (∀ p ∈ splitCh '_' (pyBasenameL fc_dir.data),
        ¬(p.length = 6 ∧ pyIntOkL p = true)) := by
  rw [get_flowcell_info_eq]
  constructor
  · intro h
    rcases hn : ((splitCh '_' (pyBasenameL fc_dir.data)).filter pyEndsXXL).getLast?
      with _ | nm
    · left
      have := List.getLast?_eq_none_iff.mp hn
      intro p hp
      have := List.filter_eq_nil_iff.mp this p hp
      simpa using this
    · rcases hd : ((splitCh '_' (pyBasenameL fc_dir.data)).filter
        (fun p => p.length == 6 && pyIntOkL p)).getLast? with _ | dt
      · right
        have := List.getLast?_eq_none_iff.mp hd
        intro p hp
        have h2 := List.filter_eq_nil_iff.mp this p hp
        intro hcon
        apply h2
        simp [hcon.1, hcon.2]
      · rw [hn, hd] at h
        simp at h
  · intro h
    rcases h with h | h
    · have : (splitCh '_' (pyBasenameL fc_dir.data)).filter pyEndsXXL = [] :=
        List.filter_eq_nil_iff.mpr (fun p hp => by rw [h p hp]; simp)
      rw [this]
      rfl
    · have : (splitCh '_' (pyBasenameL fc_dir.data)).filter
          (fun p => p.length == 6 && pyIntOkL p) = [] :=
        List.filter_eq_nil_iff.mpr (fun p hp => by
          have := h p hp
          intro hcon
          apply this
          constructor
          · have hb := ((Bool.and_eq_true _ _).mp hcon).1
            simpa using hb
          · exact ((Bool.and_eq_true _ _).mp hcon).2)
      rw [this]
      rcases ((splitCh '_' (pyBasenameL fc_dir.data)).filter pyEndsXXL).getLast? with
        _ | nm <;> rfl

/-- Witness for C6: `results_only` has no date token, so the parse fails;
instantiates the characterization at a concrete directory name. -/
theorem c6_parse_failure_witness :
    get_flowcell_info "results_only" = none := by
  have h := (c6_parse_failure_iff "results_only").mpr
  apply h
  left
  decide

/-! ## A model of the filesystem and of `glob.glob`

The filesystem is the list of existing paths.  `glob.glob(pattern)` is
modelled as the existing paths whose `/`-components all match the
corresponding pattern components; the repository only ever uses the
wildcards `*` (and never `?` or `[...]`), so the matcher implements `*`
and `?` and treats other characters literally, together with CPython
glob's rule that a wildcard component does not match names starting
with a dot unless the pattern component starts with a dot, and that a
literal component matches only itself. -/

/-- `fnmatch` on one path component: `*` matches any run of characters,
`?` any single character, anything else itself. -/
def fnmatchL : List Char → List Char → Bool
  | [], t => t.isEmpty
  | p :: ps, t =>
    if p = '*' then (t.tails).any (fun suf => fnmatchL ps suf)
    else match t with
      | [] => false
      | c :: cs => (p = '?' || p = c) && fnmatchL ps cs

/-- Whether a pattern component contains a wildcard (`glob.has_magic`). -/
def hasMagicL (cs : List Char) : Bool := cs.any (fun c => c = '*' || c = '?')

/-- Matching of one pattern component against one name, as `glob.glob1`
does per directory level: literal components match only themselves, and
wildcard components refuse hidden names unless the pattern starts with
a dot. -/
def matchComponent (pat nm : List Char) : Bool :=
  if hasMagicL pat then
    if nm.head? == some '.' && !(pat.head? == some '.') then false
    else fnmatchL pat nm
  else pat == nm

/-- Componentwise match of a whole glob pattern against a whole path. -/
def compsMatch : List (List Char) → List (List Char) → Bool
  | [], [] => true
  | a :: as, b :: bs => matchComponent a b && compsMatch as bs
  | _, _ => false

/-- Whether the path `p` matches the glob pattern `pat`. -/
def globMatch (pat p : String) : Bool :=
  compsMatch (splitCh '/' pat.data) (splitCh '/' p.data)

/-- The filesystem: the list of existing paths (files, directories and
symlinks alike; the delivery code only ever tests existence). -/
structure FS where
  paths : List String
  deriving DecidableEq

/-- `os.path.exists`. -/
def pathExists (fs : FS) (p : String) : Bool := fs.paths.contains p

/-- `glob.glob(pat)`: the existing paths matching `pat`, in filesystem
order (CPython returns `os.listdir` order, which the model fixes to the
order of `paths`). -/
def fsGlob (fs : FS) (pat : String) : List String :=
  fs.paths.filter (fun p => globMatch pat p)

/-- `os.path.join(a, b)` (posix, two arguments). -/
def pyJoin (a b : String) : String :=
  if b.data.head? = some '/' then b
  else if a.data.isEmpty || a.data.getLast? = some '/' then a ++ b
  else a ++ "/" ++ b

/-! ## `flowcell.get_fastq_dir`

Source: `nextgen/bcbio/solexa/flowcell.py`, lines 43-58.  The two globs
are evaluated before the branch in the source; in this pure model that
is observationally identical to evaluating them at their use sites. -/

def get_fastq_dir (fs : FS) (fc_dir : String) : String :=
  if pathExists fs (pyJoin (pyJoin (pyJoin fc_dir "Data") "Intensities") "BaseCalls") then
    pyJoin (pyJoin (pyJoin (pyJoin fc_dir "Data") "Intensities") "BaseCalls") "fastq"
  else
    match fsGlob fs (pyJoin (pyJoin (pyJoin fc_dir "Data") "*Firecrest*") "Bustard*") with
    | b :: _ => pyJoin b "fastq"
    | [] =>
      match fsGlob fs (pyJoin (pyJoin (pyJoin fc_dir "Data") "Intensities") "*Bustard*") with
      | b :: _ => pyJoin b "fastq"
      | [] => fc_dir

/-- C5: `get_fastq_dir` honours the fixed priority order and is total:
BaseCalls wins when present; otherwise the first `Data/*Firecrest*/Bustard*`
glob match; otherwise the first `Data/Intensities/*Bustard*` glob match;
otherwise `fc_dir` itself is returned and no error is ever raised
(totality is immediate from the return type). -/
theorem c5_fastq_dir_priority (fs : FS) (fc_dir : String) :
    (pathExists fs (pyJoin (pyJoin (pyJoin fc_dir "Data") "Intensities") "BaseCalls") = true →
      get_fastq_dir fs fc_dir =
        pyJoin (pyJoin (pyJoin (pyJoin fc_dir "Data") "Intensities") "BaseCalls") "fastq") ∧
    (∀ b rest,
      pathExists fs (pyJoin (pyJoin (pyJoin fc_dir "Data") "Intensities") "BaseCalls") = false →
      fsGlob fs (pyJoin (pyJoin (pyJoin fc_dir "Data") "*Firecrest*") "Bustard*") = b :: rest →
      get_fastq_dir fs fc_dir = pyJoin b "fastq") ∧
    (∀ b rest,
      pathExists fs (pyJoin (pyJoin (pyJoin fc_dir "Data") "Intensities") "BaseCalls") = false →
      fsGlob fs (pyJoin (pyJoin (pyJoin fc_dir "Data") "*Firecrest*") "Bustard*") = [] →
      fsGlob fs (pyJoin (pyJoin (pyJoin fc_dir "Data") "Intensities") "*Bustard*") = b :: rest →
      get_fastq_dir fs fc_dir = pyJoin b "fastq") ∧
    (pathExists fs (pyJoin (pyJoin (pyJoin fc_dir "Data") "Intensities") "BaseCalls") = false →
      fsGlob fs (pyJoin (pyJoin (pyJoin fc_dir "Data") "*Firecrest*") "Bustard*") = [] →
      fsGlob fs (pyJoin (pyJoin (pyJoin fc_dir "Data") "Intensities") "*Bustard*") = [] →
      get_fastq_dir fs fc_dir = fc_dir) := by
  refine ⟨?_, ?_, ?_, ?_⟩
  · intro h
    unfold get_fastq_dir
    rw [if_pos h]
  · intro b rest h h1
    unfold get_fastq_dir
    rw [if_neg (by simp [h]), h1]
  · intro b rest h h1 h2
    unfold get_fastq_dir
    rw [if_neg (by simp [h]), h1, h2]
  · intro h h1 h2
    unfold get_fastq_dir
    rw [if_neg (by simp [h]), h1, h2]

/-- Witness for C5: the spec's example.  A flowcell root containing only
`Data/Intensities/Bustard1.3` (no BaseCalls) resolves to
`Data/Intensities/Bustard1.3/fastq`, by the third priority rule. -/
theorem c5_fastq_dir_witness :
    get_fastq_dir
      (FS.mk ["fc/Data", "fc/Data/Intensities", "fc/Data/Intensities/Bustard1.3"]) "fc" =
      "fc/Data/Intensities/Bustard1.3/fastq" := by
  have h := (c5_fastq_dir_priority
      (FS.mk ["fc/Data", "fc/Data/Intensities", "fc/Data/Intensities/Bustard1.3"]) "fc").2.2.1
      "fc/Data/Intensities/Bustard1.3" [] (by decide) (by decide) (by decide)
  rw [h]
  decide

/-! ## `GalaxySqnLimsApi.run_details`

Source: `nextgen/bcbio/solexa/flowcell.py`, lines 74-85.  The decoded
JSON body is modelled as an association list from string keys to values
of an arbitrary type `α` (`json.loads` of an object; keys are unique in
decoded Python dicts, so `List.lookup` is the dict lookup).  The raised
`ValueError` carries `info["error"]`; a missing `details` key makes
`info["details"]` raise a `KeyError`. -/

inductive RunDetailsResult (α : Type) where
  | ok (details : α)
  | valueError (errVal : α)
  | keyError (key : String)
  deriving DecidableEq

/-- `run_details` on a decoded JSON mapping: raise `ValueError` with the
`error` value if the key is present, otherwise return `info["details"]`
(which raises `KeyError` if absent). -/
def run_details {α : Type} (info : List (String × α)) : RunDetailsResult α :=
  match info.lookup "error" with
  | some e => RunDetailsResult.valueError e
  | none =>
    match info.lookup "details" with
    | some d => RunDetailsResult.ok d
    | none => RunDetailsResult.keyError "details"

/-- C9 fails as stated: on a mapping with no `error` key and no
`details` key (for example the body `{"foo": "bar"}`), `run_details`
does not return any `details` value; it raises `KeyError`, so the
"otherwise returns the details field" half of the claim is false. -/
theorem c9_counterexample :
    run_details ([("foo", "bar")] : List (String × String)) =
      RunDetailsResult.keyError "details" ∧
    ([("foo", "bar")] : List (String × String)).lookup "error" = none ∧
    ([("foo", "bar")] : List (String × String)).lookup "details" = none := by
  refine ⟨by decide, by decide, by decide⟩

/-- C9 (amended): `run_details` raises an error carrying the body's
`error` value if and only if the mapping has an `error` key; otherwise,
if a `details` key is present its value is returned unchanged, and if
not the call fails with a `KeyError` instead of returning. -/
theorem c9_error_iff_details (α : Type) (m : List (String × α)) :
    ((∃ e, m.lookup "error" = some e ∧
        run_details m = RunDetailsResult.valueError e) ↔
      (m.lookup "error").isSome = true) ∧
    (m.lookup "error" = none → ∀ d, m.lookup "details" = some d →
      run_details m = RunDetailsResult.ok d) ∧
    (m.lookup "error" = none → m.lookup "details" = none →
      run_details m = RunDetailsResult.keyError "details") := by
  refine ⟨⟨?_, ?_⟩, ?_, ?_⟩
  · rintro ⟨e, he, _⟩
    rw [he]
    rfl
  · intro h
    rcases he : m.lookup "error" with _ | e
    · rw [he] at h; simp at h
    · refine ⟨e, rfl, ?_⟩
      unfold run_details
      rw [he]
  · intro he d hd
    unfold run_details
    rw [he, hd]
  · intro he hd
    unfold run_details
    rw [he, hd]

/-- Witness for C9: a body with an `error` key raises carrying its
value, and a body with only `details` returns it unchanged. -/
theorem c9_witness :
    run_details ([("error", "boom")] : List (String × String)) =
      RunDetailsResult.valueError "boom" ∧
    run_details ([("details", "payload")] : List (String × String)) =
      RunDetailsResult.ok "payload" := by
  constructor
  · have h := (c9_error_iff_details String [("error", "boom")]).1.2 (by decide)
    rcases h with ⟨e, he, hrun⟩
    have : e = "boom" := by
      have : some e = some "boom" := by rw [← he]; decide
      simpa using this
    rw [this] at hrun
    exact hrun
  · exact (c9_error_iff_details String [("details", "payload")]).2.1 (by decide)
      "payload" (by decide)

/-! ## The delivery engine (`scripts/project_analysis_setup.py`)

State-changing calls are modelled by threading the `FS` value and
accumulating a list of filesystem `Effect`s; log and print calls leave
no effect.  The global `options` object is the `Opts` record, and the
values `main` stores in `config`/`dirs` are the `Config` record. -/

inductive TransferMode where
  | copyfile
  | move
  | copytree
  | symlink
  deriving DecidableEq

/-- A filesystem mutation performed by the script. -/
inductive Effect where
  | mkdir (dir : String)
  | transfer (mode : TransferMode) (src tgt : String)
  | write (path : String)
  deriving DecidableEq

/-- The boolean command-line options (the global `options`). -/
structure Opts where
  dry_run : Bool := false
  move : Bool := false
  only_fastq : Bool := false
  only_run_info : Bool := false
  verbose : Bool := false
  deriving DecidableEq

/-- The values `main` computes once and stores in `config` and `dirs`. -/
structure Config where
  fc_name : String
  fc_date : String
  fc_alias : String
  fc_dir : String
  fc_delivery_dir : String
  data_delivery_dir : String
  deriving DecidableEq

/-- One run-info entry (lane number and description field). -/
structure LaneInfo where
  lane : Nat
  description : String
  deriving DecidableEq

/-- A lane to deliver: its run-info entry together with the barcoded
fastq file pairs returned by the external `get_barcoded_fastq_files`
collaborator. -/
structure Lane where
  info : LaneInfo
  fq : List (List String)
  deriving DecidableEq

/-- Creating a path (`os.makedirs`, `shutil.copyfile` target, ...). -/
def FS.insert (fs : FS) (p : String) : FS :=
  if pathExists fs p then fs else FS.mk (p :: fs.paths)

/-- Removing a path (the source of a `shutil.move`). -/
def FS.erase (fs : FS) (p : String) : FS := FS.mk (fs.paths.erase p)

/-- The filesystem change made by one transfer call `f(src, tgt)`. -/
def applyTransfer (fs : FS) (mode : TransferMode) (src tgt : String) : FS :=
  match mode with
  | TransferMode.move => (FS.erase fs src).insert tgt
  | _ => fs.insert tgt

/-- `_make_dir` (lines 125-130): create the directory unless it exists;
note that the source has NO dry-run guard here. -/
def _make_dir (fs : FS) (dir : String) : FS × List Effect :=
  if pathExists fs dir then (fs, [])
  else (fs.insert dir, [Effect.mkdir dir])

/-- `_handle_data` (lines 132-142): skip `None` sources, skip (with a
warning) existing targets, print only under dry-run, otherwise perform
the transfer. -/
def _handle_data (opts : Opts) (fs : FS) (src : Option String) (tgt : String)
    (f : TransferMode) : FS × List Effect :=
  match src with
  | none => (fs, [])
  | some s =>
    if pathExists fs tgt then (fs, [])
    else if opts.dry_run then (fs, [])
    else (applyTransfer fs f s tgt, [Effect.transfer f s tgt])

/-- `shutil.move if options.move else shutil.copyfile`. -/
def fileMode (opts : Opts) : TransferMode :=
  if opts.move then TransferMode.move else TransferMode.copyfile

/-- `shutil.move if options.move else shutil.copytree`. -/
def treeMode (opts : Opts) : TransferMode :=
  if opts.move then TransferMode.move else TransferMode.copytree

/-- `_deliver_fastq_file` (lines 112-113). -/
def _deliver_fastq_file (opts : Opts) (fs : FS) (fq_src fq_tgt outdir : String) :
    FS × List Effect :=
  _handle_data opts fs (some fq_src) (pyJoin outdir fq_tgt) (fileMode opts)

/-- Sequence a state-and-effects step over a list. -/
def stepAll {β : Type} (f : FS → β → FS × List Effect) (fs : FS) :
    List β → FS × List Effect
  | [] => (fs, [])
  | x :: rest =>
    ((stepAll f (f fs x).1 rest).1, (f fs x).2 ++ (stepAll f (f fs x).1 rest).2)

/-- `_deliver_data` (lines 144-152): analysis files to `outdir`, fastqc
results to `outdir/fastqc`. -/
def _deliver_data (opts : Opts) (fs : FS) (data fastqc : List String)
    (outdir : String) : FS × List Effect :=
  ((stepAll (fun fs1 src => _handle_data opts fs1 (some src)
        (pyJoin (pyJoin outdir "fastqc") (pyBasename src)) (treeMode opts))
      (stepAll (fun fs1 src => _handle_data opts fs1 (some src)
        (pyJoin outdir (pyBasename src)) (fileMode opts)) fs data).1 fastqc).1,
   (stepAll (fun fs1 src => _handle_data opts fs1 (some src)
        (pyJoin outdir (pyBasename src)) (fileMode opts)) fs data).2 ++
   (stepAll (fun fs1 src => _handle_data opts fs1 (some src)
        (pyJoin (pyJoin outdir "fastqc") (pyBasename src)) (treeMode opts))
      (stepAll (fun fs1 src => _handle_data opts fs1 (some src)
        (pyJoin outdir (pyBasename src)) (fileMode opts)) fs data).1 fastqc).2)

/-- `"_".join([str(lane), fc_date, fc_name])`. -/
def flowcellStr (cfg : Config) (lane : Nat) : String :=
  toString lane ++ "_" ++ cfg.fc_date ++ "_" ++ cfg.fc_name

/-- `_get_analysis_results` (lines 154-164): glob the flowcell directory
for `{lane}_{date}_{name}*.*` and its `fastqc` subdirectory for
`{lane}_{date}_{name}*`. -/
def _get_analysis_results (cfg : Config) (fs : FS) (lane : Nat) :
    List String × List String :=
  (fsGlob fs (pyJoin cfg.fc_dir (flowcellStr cfg lane ++ "*.*")),
   fsGlob fs (pyJoin (pyJoin cfg.fc_dir "fastqc") (flowcellStr cfg lane ++ "*")))

/-- The per-lane barcode directory `{lane}_{date}_{name}_barcode` under
the data delivery directory (line 102). -/
def fcBcDir (cfg : Config) (lane : Nat) : String :=
  pyJoin cfg.data_delivery_dir (flowcellStr cfg lane ++ "_barcode")

/-- The fastq double loop of `process_lane` (lines 108-109). -/
def fastqDelivery (opts : Opts) (fs : FS) (fq : List (List String))
    (outdir : String) : FS × List Effect :=
  stepAll (fun fs1 pair =>
      stepAll (fun fs2 fq_src =>
        _deliver_fastq_file opts fs2 fq_src (pyBasename fq_src) outdir) fs1 pair)
    fs fq

/-- `process_lane` (lines 90-109): make the barcode directory, deliver
analysis and fastqc results unless fastq-only mode, deliver fastq files. -/
def process_lane (opts : Opts) (cfg : Config) (fs : FS) (l : Lane) :
    FS × List Effect :=
  ((fastqDelivery opts
      (if !opts.only_fastq then
        (_deliver_data opts (_make_dir fs (fcBcDir cfg l.info.lane)).1
          (_get_analysis_results cfg (_make_dir fs (fcBcDir cfg l.info.lane)).1 l.info.lane).1
          (_get_analysis_results cfg (_make_dir fs (fcBcDir cfg l.info.lane)).1 l.info.lane).2
          cfg.data_delivery_dir).1
      else (_make_dir fs (fcBcDir cfg l.info.lane)).1)
      l.fq (fcBcDir cfg l.info.lane)).1,
   (_make_dir fs (fcBcDir cfg l.info.lane)).2 ++
   (if !opts.only_fastq then
      (_deliver_data opts (_make_dir fs (fcBcDir cfg l.info.lane)).1
        (_get_analysis_results cfg (_make_dir fs (fcBcDir cfg l.info.lane)).1 l.info.lane).1
        (_get_analysis_results cfg (_make_dir fs (fcBcDir cfg l.info.lane)).1 l.info.lane).2
        cfg.data_delivery_dir).2
    else []) ++
   (fastqDelivery opts
      (if !opts.only_fastq then
        (_deliver_data opts (_make_dir fs (fcBcDir cfg l.info.lane)).1
          (_get_analysis_results cfg (_make_dir fs (fcBcDir cfg l.info.lane)).1 l.info.lane).1
          (_get_analysis_results cfg (_make_dir fs (fcBcDir cfg l.info.lane)).1 l.info.lane).2
          cfg.data_delivery_dir).1
      else (_make_dir fs (fcBcDir cfg l.info.lane)).1)
      l.fq (fcBcDir cfg l.info.lane)).2)

/-- `run_main` (lines 86-88). -/
def run_main (opts : Opts) (cfg : Config) (fs : FS) (lanes : List Lane) :
    FS × List Effect :=
  stepAll (fun fs1 l => process_lane opts cfg fs1 l) fs lanes

/-- `os.path.dirname` (posix). -/
def pyDirnameL (cs : List Char) : List Char :=
  if (cs.take (cs.length - (cs.reverse.takeWhile (fun c => c ≠ '/')).length)).all
      (fun c => c = '/') then
    cs.take (cs.length - (cs.reverse.takeWhile (fun c => c ≠ '/')).length)
  else
    ((cs.take (cs.length - (cs.reverse.takeWhile (fun c => c ≠ '/')).length)).reverse.dropWhile
      (fun c => c = '/')).reverse

def pyDirname (s : String) : String := ⟨pyDirnameL s.data⟩

/-- `_make_delivery_directory` (lines 115-123): create both delivery
directories and, when the alias differs from the data directory name,
symlink the alias to it. -/
def _make_delivery_directory (opts : Opts) (cfg : Config) (fs : FS) :
    FS × List Effect :=
  (((if pyBasename cfg.data_delivery_dir ≠ cfg.fc_alias then
      _handle_data opts (_make_dir (_make_dir fs cfg.fc_delivery_dir).1
          cfg.data_delivery_dir).1
        (some cfg.data_delivery_dir)
        (pyJoin (pyDirname cfg.data_delivery_dir) cfg.fc_alias) TransferMode.symlink
    else ((_make_dir (_make_dir fs cfg.fc_delivery_dir).1 cfg.data_delivery_dir).1, []))).1,
   (_make_dir fs cfg.fc_delivery_dir).2 ++
   (_make_dir (_make_dir fs cfg.fc_delivery_dir).1 cfg.data_delivery_dir).2 ++
   ((if pyBasename cfg.data_delivery_dir ≠ cfg.fc_alias then
      _handle_data opts (_make_dir (_make_dir fs cfg.fc_delivery_dir).1
          cfg.data_delivery_dir).1
        (some cfg.data_delivery_dir)
        (pyJoin (pyDirname cfg.data_delivery_dir) cfg.fc_alias) TransferMode.symlink
    else ((_make_dir (_make_dir fs cfg.fc_delivery_dir).1 cfg.data_delivery_dir).1, []))).2)

/-- `_save_run_info` (lines 166-175): write `project_run_info.yaml`
unless dry-run (the write happens unconditionally, overwriting any
existing file); `run_exit` is handled by the caller model. -/
def _save_run_info (opts : Opts) (fs : FS) (outdir : String) : FS × List Effect :=
  if opts.dry_run then (fs, [])
  else (fs.insert (pyJoin outdir "project_run_info.yaml"),
        [Effect.write (pyJoin outdir "project_run_info.yaml")])

/-- The delivery phase of `main` (lines 81-84): make the delivery
directories, save the pruned run-info (exiting there when
`only_run_info` is set), then process every lane. -/
def run_delivery (opts : Opts) (cfg : Config) (fs : FS) (lanes : List Lane) :
    FS × List Effect :=
  if opts.only_run_info then
    ((_save_run_info opts (_make_delivery_directory opts cfg fs).1
        cfg.fc_delivery_dir).1,
     (_make_delivery_directory opts cfg fs).2 ++
     (_save_run_info opts (_make_delivery_directory opts cfg fs).1
        cfg.fc_delivery_dir).2)
  else
    ((run_main opts cfg (_save_run_info opts (_make_delivery_directory opts cfg fs).1
        cfg.fc_delivery_dir).1 lanes).1,
     (_make_delivery_directory opts cfg fs).2 ++
     (_save_run_info opts (_make_delivery_directory opts cfg fs).1
        cfg.fc_delivery_dir).2 ++
     (run_main opts cfg (_save_run_info opts (_make_delivery_directory opts cfg fs).1
        cfg.fc_delivery_dir).1 lanes).2)

/-! ## Scope checks of `main` (claims C7)

`main` (lines 57-73) exits before any delivery when no scoping option is
given or when pruning leaves nothing.  The pruning function
`prune_run_info_by_description` lives in `bcbio.pipeline.run_info`,
which is part of this repository but not among the provided sources, so
it is modelled from the spec. -/

/-- Modelled from the spec: the comma-separated `--lanes` list of
integers. -/
def parseLanes (s : String) : List Nat :=
  (s.splitOn ",").filterMap String.toNat?

/-- Modelled from the spec: `prune_run_info_by_description` from
`bcbio.pipeline.run_info` (not under the provided sources).  Selection
rule per spec section 4.4: keep everything for `ALL`; else filter by
lane numbers when lanes are given; else filter by exact description
match; with neither, nothing is selected. -/
def prune_run_info_by_description (details : List LaneInfo)
    (project_desc lanes : Option String) : List LaneInfo :=
  if project_desc = some "ALL" then details
  else
    match lanes with
    | some ls => details.filter (fun e => (parseLanes ls).contains e.lane)
    | none =>
      match project_desc with
      | some d => details.filter (fun e => e.description == d)
      | none => []

/-- Outcome of the scoping prefix of `main`: either a logged fatal exit
(`sys.exit` after `log.error`, before any filesystem effect), or the
pruned run-info with which delivery proceeds. -/
inductive MainResult where
  | earlyExit (logged_error : String)
  | proceed (pruned : List LaneInfo)
  deriving DecidableEq

/-- The scoping prefix of `main` (lines 57-73): exit if neither a
project description nor lanes are given (before loading config), else
prune, then exit if nothing is left (before any delivery directory is
created or file transferred). -/
def main_scope (project_desc lanes : Option String) (details : List LaneInfo) :
    MainResult :=
  if project_desc.isNone && lanes.isNone then
    MainResult.earlyExit
      "No project description or lanes provided: cannot deliver files without this information"
  else if (prune_run_info_by_description details project_desc lanes).isEmpty then
    MainResult.earlyExit
      "No lanes found with matching description: please check your flowcell run information"
  else MainResult.proceed (prune_run_info_by_description details project_desc lanes)

/-- C7: `main` exits fatally (with a logged error, before delivering
anything) exactly when both scoping options are absent or pruning
leaves an empty list; otherwise it proceeds with the non-empty pruned
run-info. -/
theorem c7_scope_exits (pd lanes : Option String) (details : List LaneInfo) :
    ((∃ msg, main_scope pd lanes details = MainResult.earlyExit msg) ↔
      (pd = none ∧ lanes = none) ∨
        prune_run_info_by_description details pd lanes = []) ∧
    (∀ l, main_scope pd lanes details = MainResult.proceed l →
      l = prune_run_info_by_description details pd lanes ∧ l ≠ []) := by
  unfold main_scope
  by_cases h1 : (pd.isNone && lanes.isNone) = true
  · rw [if_pos h1]
    constructor
    · constructor
      · intro _
        left
        exact ⟨Option.isNone_iff_eq_none.mp ((Bool.and_eq_true _ _).mp h1).1,
          Option.isNone_iff_eq_none.mp ((Bool.and_eq_true _ _).mp h1).2⟩
      · intro _
        exact ⟨_, rfl⟩
    · intro l hl
      exact absurd hl (by simp)
  · rw [if_neg h1]
    by_cases h2 : (prune_run_info_by_description details pd lanes).isEmpty = true
    · rw [if_pos h2]
      constructor
      · constructor
        · intro _
          right
          exact List.isEmpty_iff.mp h2
        · intro _
          exact ⟨_, rfl⟩
      · intro l hl
        exact absurd hl (by simp)
    · rw [if_neg h2]
      constructor
      · constructor
        · rintro ⟨msg, hmsg⟩
          exact absurd hmsg (by simp)
        · rintro (⟨hpd, hl⟩ | hprune)
          · exfalso
            apply h1
            rw [hpd, hl]
            rfl
          · exfalso
            apply h2
            rw [hprune]
            rfl
      · intro l hl
        have : l = prune_run_info_by_description details pd lanes := by
          have := hl.symm
          simpa using this
        refine ⟨this, ?_⟩
        intro hnil
        apply h2
        rw [← this, hnil]
        rfl

/-- Witness for C7: with `project_desc = ALL` the run proceeds with the
full (non-empty) run-info. -/
theorem c7_scope_witness :
    [LaneInfo.mk 1 "A"] =
      prune_run_info_by_description [LaneInfo.mk 1 "A"] (some "ALL") none ∧
    [LaneInfo.mk 1 "A"] ≠ ([] : List LaneInfo) :=
  (c7_scope_exits (some "ALL") none [LaneInfo.mk 1 "A"]).2
    [LaneInfo.mk 1 "A"] (by decide)

/-! ## Claim C2: dry-run is NOT filesystem-neutral (code bug)

`_handle_data` and `_save_run_info` both guard on `options.dry_run`,
but `_make_dir` (lines 125-130) does not: `os.makedirs` runs even under
`--dry_run`, although the script's own usage text says the flag means
"Don't do anything ..., just list what will happen". -/

/-- C2 failing input, evaluated: a dry run over an empty filesystem
still creates the flowcell delivery directory and the per-lane barcode
directory, so the filesystem is mutated. -/
theorem c2_dry_run_creates_directories :
    (run_delivery (Opts.mk true false false false false)
        (Config.mk "FCXX" "110215" "110215_FCXX" "fc" "proj/110215_FCXX"
          "proj/110215_FCXX")
        (FS.mk []) [Lane.mk (LaneInfo.mk 1 "A") []]).2 =
      [Effect.mkdir "proj/110215_FCXX",
       Effect.mkdir "proj/110215_FCXX/1_110215_FCXX_barcode"] ∧
    (run_delivery (Opts.mk true false false false false)
        (Config.mk "FCXX" "110215" "110215_FCXX" "fc" "proj/110215_FCXX"
          "proj/110215_FCXX")
        (FS.mk []) [Lane.mk (LaneInfo.mk 1 "A") []]).1 ≠ FS.mk [] := by
  refine ⟨by decide, by decide⟩

/-! ## Claim C10: the `-i`/`-f` short flags are swapped w.r.t. the usage text -/

/-- The boolean flags registered on the `OptionParser` (lines 198-207):
`(short, long, dest)`. -/
def flagTable : List (String × String × String) :=
  [("-i", "--only_install_fastq", "only_fastq"),
   ("-f", "--only_install_run_info", "only_run_info"),
   ("-m", "--move_data", "move"),
   ("-v", "--verbose", "verbose"),
   ("-n", "--dry_run", "dry_run")]

/-- Setting one boolean destination (`action="store_true"`). -/
def setFlag (o : Opts) (dest : String) : Opts :=
  if dest = "only_fastq" then { o with only_fastq := true }
  else if dest = "only_run_info" then { o with only_run_info := true }
  else if dest = "move" then { o with move := true }
  else if dest = "verbose" then { o with verbose := true }
  else if dest = "dry_run" then { o with dry_run := true }
  else o

/-- The `optparse` behaviour on the script's boolean flags: each
occurrence of a registered short or long flag sets its destination. -/
def parse_options (args : List String) : Opts :=
  args.foldl (fun o a =>
    match flagTable.find? (fun t => t.1 == a || t.2.1 == a) with
    | some t => setFlag o t.2.2
    | none => o) {}

/-- The option pairing documented in the module usage text `__doc__`
(lines 27-37): `(short flag, long name)`. -/
def docOptionPairs : List (String × String) :=
  [("-d", "--data_prefix"),
   ("-a", "--flowcell_alias"),
   ("-y", "--project_desc"),
   ("-l", "--lanes"),
   ("-i", "--only_install_run_info"),
   ("-f", "--only_install_fastq"),
   ("-m", "--move_data"),
   ("-n", "--dry_run"),
   ("-v", "--verbose")]

/-- C10: `-i` sets `only_fastq` and `-f` sets `only_run_info`, while the
usage text pairs `-i` with `--only_install_run_info` and `-f` with
`--only_install_fastq` — the opposite of the parser's pairing; and the
behaviours: `only_fastq` skips exactly the analysis-result delivery of
`process_lane` (fastq files are still delivered), while `only_run_info`
stops after writing the run-info file, so no lane is processed at all. -/
theorem c10_flag_swap :
    ((parse_options ["-i"]).only_fastq = true ∧
      (parse_options ["-i"]).only_run_info = false ∧
      (parse_options ["-f"]).only_run_info = true ∧
      (parse_options ["-f"]).only_fastq = false) ∧
    ((flagTable.find? (fun t => t.1 == "-i")).map (fun t => t.2.1) =
        some "--only_install_fastq" ∧
      docOptionPairs.lookup "-i" = some "--only_install_run_info" ∧
      (flagTable.find? (fun t => t.1 == "-f")).map (fun t => t.2.1) =
        some "--only_install_run_info" ∧
      docOptionPairs.lookup "-f" = some "--only_install_fastq") ∧
    (∀ (opts : Opts) (cfg : Config) (fs : FS) (l : Lane),
      opts.only_fastq = true →
      process_lane opts cfg fs l =
        ((fastqDelivery opts (_make_dir fs (fcBcDir cfg l.info.lane)).1 l.fq
            (fcBcDir cfg l.info.lane)).1,
         (_make_dir fs (fcBcDir cfg l.info.lane)).2 ++
           (fastqDelivery opts (_make_dir fs (fcBcDir cfg l.info.lane)).1 l.fq
             (fcBcDir cfg l.info.lane)).2)) ∧
    (∀ (opts : Opts) (cfg : Config) (fs : FS) (lanes1 lanes2 : List Lane),
      opts.only_run_info = true →
      run_delivery opts cfg fs lanes1 = run_delivery opts cfg fs lanes2) := by
  refine ⟨⟨by decide, by decide, by decide, by decide⟩,
    ⟨by decide, by decide, by decide, by decide⟩, ?_, ?_⟩
  · intro opts cfg fs l h
    unfold process_lane
    rw [h]
    simp
  · intro opts cfg fs lanes1 lanes2 h
    unfold run_delivery
    rw [if_pos h, if_pos h]

/-- Witness for C10: with `only_run_info` set, delivering a non-trivial
lane list produces exactly the same state and effects as delivering no
lanes at all. -/
theorem c10_flag_swap_witness :
    run_delivery (Opts.mk false false false true false)
        (Config.mk "FCXX" "110215" "110215_FCXX" "fc" "proj/110215_FCXX"
          "proj/110215_FCXX")
        (FS.mk []) [Lane.mk (LaneInfo.mk 1 "A") [["fc/f.fastq"]]] =
      run_delivery (Opts.mk false false false true false)
        (Config.mk "FCXX" "110215" "110215_FCXX" "fc" "proj/110215_FCXX"
          "proj/110215_FCXX")
        (FS.mk []) [] :=
  c10_flag_swap.2.2.2 (Opts.mk false false false true false)
    (Config.mk "FCXX" "110215" "110215_FCXX" "fc" "proj/110215_FCXX"
      "proj/110215_FCXX")
    (FS.mk []) [Lane.mk (LaneInfo.mk 1 "A") [["fc/f.fastq"]]] [] rfl

/-! ## Decomposition facts about paths and glob matching (for C8) -/

theorem splitCh_nil (sep : Char) : splitCh sep [] = [[]] := rfl

theorem splitCh_cons (sep c : Char) (cs : List Char) :
    splitCh sep (c :: cs) =
      if c = sep then [] :: splitCh sep cs
      else match splitCh sep cs with
        | [] => [[c]]
        | r :: rs => (c :: r) :: rs := rfl

theorem splitCh_ne_nil (sep : Char) (cs : List Char) : splitCh sep cs ≠ [] := by
  cases cs with
  | nil => simp [splitCh_nil]
  | cons c cs =>
    rw [splitCh_cons]
    by_cases h : c = sep
    · rw [if_pos h]; simp
    · rw [if_neg h]
      rcases hr : splitCh sep cs with _ | ⟨r, rs⟩ <;> simp

theorem splitCh_cons_sep (sep : Char) (ys : List Char) :
    splitCh sep (sep :: ys) = [] :: splitCh sep ys := by
  rw [splitCh_cons, if_pos rfl]

theorem splitCh_cons_ne (sep c : Char) (cs : List Char) (h : ¬c = sep)
    (r : List Char) (rs : List (List Char)) (hr : splitCh sep cs = r :: rs) :
    splitCh sep (c :: cs) = (c :: r) :: rs := by
  rw [splitCh_cons, if_neg h, hr]

theorem splitCh_append (sep : Char) (xs ys : List Char) :
    splitCh sep (xs ++ sep :: ys) = splitCh sep xs ++ splitCh sep ys := by
  induction xs with
  | nil =>
    rw [List.nil_append, splitCh_cons_sep, splitCh_nil]
    rfl
  | cons c cs ih =>
    rcases hr : splitCh sep cs with _ | ⟨r, rs⟩
    · exact absurd hr (splitCh_ne_nil sep cs)
    · by_cases h : c = sep
      · rw [show (c :: cs) ++ sep :: ys = c :: (cs ++ sep :: ys) from rfl]
        subst h
        rw [splitCh_cons_sep, splitCh_cons_sep, ih]
        rfl
      · rw [show (c :: cs) ++ sep :: ys = c :: (cs ++ sep :: ys) from rfl]
        have hr2 : splitCh sep (cs ++ sep :: ys) = r :: (rs ++ splitCh sep ys) := by
          rw [ih, hr]
          rfl
        rw [splitCh_cons_ne sep c _ h r (rs ++ splitCh sep ys) hr2,
          splitCh_cons_ne sep c cs h r rs hr]
        rfl

theorem splitCh_no_sep (sep : Char) (cs : List Char) (h : sep ∉ cs) :
    splitCh sep cs = [cs] := by
  induction cs with
  | nil => rfl
  | cons c cs ih =>
    have hr : splitCh sep cs = [cs] := ih (fun hmem => h (List.mem_cons_of_mem c hmem))
    exact splitCh_cons_ne sep c cs
      (fun he => h (he ▸ List.mem_cons_self c cs)) cs [] hr

theorem splitCh_mem_no_sep (sep : Char) (cs : List Char) :
    ∀ comp ∈ splitCh sep cs, sep ∉ comp := by
  induction cs with
  | nil =>
    intro comp hcomp
    rw [splitCh_nil] at hcomp
    simp at hcomp
    rw [hcomp]
    simp
  | cons c cs ih =>
    intro comp hcomp
    by_cases h : c = sep
    · subst h
      rw [splitCh_cons_sep] at hcomp
      rcases List.mem_cons.mp hcomp with h2 | h2
      · rw [h2]; simp
      · exact ih comp h2
    · rcases hr : splitCh sep cs with _ | ⟨r, rs⟩
      · exact absurd hr (splitCh_ne_nil sep cs)
      · rw [splitCh_cons_ne sep c cs h r rs hr] at hcomp
        rcases List.mem_cons.mp hcomp with h2 | h2
        · rw [h2]
          intro hmem
          rcases List.mem_cons.mp hmem with h3 | h3
          · exact h h3.symm
          · exact ih r (hr ▸ List.mem_cons_self r rs) h3
        · exact ih comp (hr ▸ List.mem_cons_of_mem r h2)

/-- Inverse of `splitCh`: interleave the separator back. -/
def joinCh (sep : Char) : List (List Char) → List Char
  | [] => []
  | [x] => x
  | x :: xs => x ++ sep :: joinCh sep xs

theorem joinCh_cons2 (sep : Char) (x y : List Char) (xs : List (List Char)) :
    joinCh sep (x :: y :: xs) = x ++ sep :: joinCh sep (y :: xs) := rfl

theorem joinCh_splitCh (sep : Char) (cs : List Char) :
    joinCh sep (splitCh sep cs) = cs := by
  induction cs with
  | nil => rfl
  | cons c cs ih =>
    by_cases h : c = sep
    · have hcs : splitCh sep (c :: cs) = [] :: splitCh sep cs := by
        rw [h]
        exact splitCh_cons_sep sep cs
      rw [hcs]
      rcases hr : splitCh sep cs with _ | ⟨r, rs⟩
      · exact absurd hr (splitCh_ne_nil sep cs)
      · rw [hr] at ih
        rw [joinCh_cons2, ih, h]
        rfl
    · rcases hr : splitCh sep cs with _ | ⟨r, rs⟩
      · exact absurd hr (splitCh_ne_nil sep cs)
      · rw [splitCh_cons_ne sep c cs h r rs hr]
        rw [hr] at ih
        cases rs with
        | nil =>
          show c :: r = c :: cs
          have hrcs : r = cs := ih
          rw [hrcs]
        | cons u us =>
          rw [joinCh_cons2] at ih
          rw [joinCh_cons2, List.cons_append, ih]

theorem joinCh_append_single (sep : Char) (A : List (List Char)) (b : List Char)
    (hA : A ≠ []) : joinCh sep (A ++ [b]) = joinCh sep A ++ sep :: b := by
  induction A with
  | nil => exact absurd rfl hA
  | cons a as ih =>
    cases as with
    | nil => rfl
    | cons a2 as2 =>
      have hx : (a :: a2 :: as2) ++ [b] = a :: a2 :: (as2 ++ [b]) := rfl
      rw [hx, joinCh_cons2]
      have hy : a2 :: (as2 ++ [b]) = (a2 :: as2) ++ [b] := rfl
      rw [hy, ih (by simp), joinCh_cons2]
      simp

theorem compsMatch_cons (a b : List Char) (as bs : List (List Char)) :
    compsMatch (a :: as) (b :: bs) = (matchComponent a b && compsMatch as bs) := rfl

theorem compsMatch_append_single (A : List (List Char)) (pc : List Char)
    (B : List (List Char)) :
    compsMatch (A ++ [pc]) B = true ↔
      ∃ B0 b, B = B0 ++ [b] ∧ compsMatch A B0 = true ∧
        matchComponent pc b = true := by
  induction A generalizing B with
  | nil =>
    simp only [List.nil_append]
    constructor
    · intro h
      rcases B with _ | ⟨b, bs⟩
      · exact absurd h (by simp [compsMatch])
      · rcases bs with _ | ⟨b2, bs2⟩
        · refine ⟨[], b, by simp, rfl, ?_⟩
          rw [compsMatch_cons] at h
          exact ((Bool.and_eq_true _ _).mp h).1
        · exfalso
          rw [compsMatch_cons] at h
          have := ((Bool.and_eq_true _ _).mp h).2
          exact absurd this (by simp [compsMatch])
    · rintro ⟨B0, b, hB, hm, hc⟩
      rcases B0 with _ | ⟨z, zs⟩
      · rw [hB, List.nil_append, compsMatch_cons, hc]
        rfl
      · exact absurd hm (by simp [compsMatch])
  | cons a as ih =>
    constructor
    · intro h
      rcases B with _ | ⟨b, bs⟩
      · exact absurd h (by simp [compsMatch])
      · rw [show (a :: as) ++ [pc] = a :: (as ++ [pc]) from rfl, compsMatch_cons] at h
        have h1 := ((Bool.and_eq_true _ _).mp h).1
        have h2 := ((Bool.and_eq_true _ _).mp h).2
        rcases (ih bs).mp h2 with ⟨B0, bb, hB, hm, hc⟩
        refine ⟨b :: B0, bb, by rw [hB]; rfl, ?_, hc⟩
        rw [compsMatch_cons, h1, hm]
        rfl
    · rintro ⟨B0, b, hB, hm, hc⟩
      rcases B0 with _ | ⟨z, zs⟩
      · exact absurd hm (by simp [compsMatch])
      · rw [compsMatch_cons] at hm
        have h1 := ((Bool.and_eq_true _ _).mp hm).1
        have h2 := ((Bool.and_eq_true _ _).mp hm).2
        rw [hB]
        rw [show (a :: as) ++ [pc] = a :: (as ++ [pc]) from rfl,
          show (z :: zs) ++ [b] = z :: (zs ++ [b]) from rfl, compsMatch_cons,
          h1, (ih (zs ++ [b])).mpr ⟨zs, b, rfl, h2, hc⟩]
        rfl

theorem matchComponent_literal (a b : List Char) (h : hasMagicL a = false) :
    (matchComponent a b = true ↔ b = a) := by
  unfold matchComponent
  rw [h]
  simp only [Bool.false_eq_true, if_false]
  constructor
  · intro hb
    exact (beq_iff_eq.mp hb).symm
  · intro hb
    rw [hb]
    exact beq_iff_eq.mpr rfl

theorem compsMatch_literal (A B : List (List Char))
    (h : ∀ a ∈ A, hasMagicL a = false) :
    (compsMatch A B = true ↔ B = A) := by
  induction A generalizing B with
  | nil =>
    rcases B with _ | ⟨b, bs⟩
    · simp [compsMatch]
    · simp [compsMatch]
  | cons a as ih =>
    rcases B with _ | ⟨b, bs⟩
    · simp [compsMatch]
    · rw [compsMatch_cons, Bool.and_eq_true]
      constructor
      · rintro ⟨h1, h2⟩
        have hb := (matchComponent_literal a b (h a (List.mem_cons_self a as))).mp h1
        have hbs := (ih bs (fun x hx => h x (List.mem_cons_of_mem a hx))).mp h2
        rw [hb, hbs]
      · intro hB
        have hb : b = a := by injection hB
        have hbs : bs = as := by injection hB
        exact ⟨(matchComponent_literal a b (h a (List.mem_cons_self a as))).mpr hb,
          (ih bs (fun x hx => h x (List.mem_cons_of_mem a hx))).mpr hbs⟩

/-- Characterization of matching a glob pattern `pyJoin fc patC` where
`fc` is a wildcard-free directory prefix and `patC` a single component:
the matches are exactly the paths `fc ++ "/" ++ nm` for a slash-free
component `nm` matching `patC`. -/
theorem globMatch_under (fc patC p : String)
    (hfc_ne : fc.data ≠ [])
    (hfc_last : fc.data.getLast? ≠ some '/')
    (hfc_lit : ∀ a ∈ splitCh '/' fc.data, hasMagicL a = false)
    (hpat_head : patC.data.head? ≠ some '/')
    (hpat_noslash : '/' ∉ patC.data) :
    globMatch (pyJoin fc patC) p = true ↔
      ∃ nm : String, p = fc ++ "/" ++ nm ∧ '/' ∉ nm.data ∧
        matchComponent patC.data nm.data = true := by
  have hjoin : pyJoin fc patC = fc ++ "/" ++ patC := by
    unfold pyJoin
    rw [if_neg hpat_head, if_neg (by simp [hfc_ne, hfc_last])]
  have hdata : ∀ t : String, (fc ++ "/" ++ t).data = fc.data ++ '/' :: t.data := by
    intro t
    rw [String.data_append, String.data_append]
    simp
  have hsplit : splitCh '/' (pyJoin fc patC).data =
      splitCh '/' fc.data ++ [patC.data] := by
    rw [hjoin, hdata, splitCh_append, splitCh_no_sep '/' patC.data hpat_noslash]
  constructor
  · intro h
    unfold globMatch at h
    rw [hsplit] at h
    rcases (compsMatch_append_single (splitCh '/' fc.data) patC.data
        (splitCh '/' p.data)).mp h with ⟨B0, b, hB, hm, hc⟩
    have hB0 : B0 = splitCh '/' fc.data :=
      (compsMatch_literal (splitCh '/' fc.data) B0 hfc_lit).mp hm
    have hpdata : p.data = fc.data ++ '/' :: b := by
      have hj := joinCh_splitCh '/' p.data
      rw [hB, hB0] at hj
      rw [← hj, joinCh_append_single '/' (splitCh '/' fc.data) b
        (splitCh_ne_nil '/' fc.data), joinCh_splitCh]
    refine ⟨⟨b⟩, ?_, ?_, hc⟩
    · apply String.ext
      rw [hpdata, hdata]
    · have hmem : b ∈ splitCh '/' p.data := by
        rw [hB, hB0]
        exact List.mem_append_right _ (List.mem_cons_self b [])
      exact splitCh_mem_no_sep '/' p.data b hmem
  · rintro ⟨nm, hp, hnm, hc⟩
    unfold globMatch
    rw [hsplit, hp, hdata, splitCh_append, splitCh_no_sep '/' nm.data hnm]
    exact (compsMatch_append_single (splitCh '/' fc.data) patC.data
        (splitCh '/' fc.data ++ [nm.data])).mpr
      ⟨splitCh '/' fc.data, nm.data, rfl,
        (compsMatch_literal (splitCh '/' fc.data) (splitCh '/' fc.data) hfc_lit).mpr rfl,
        hc⟩

/-! ## Basic facts about the filesystem model -/

theorem pathExists_iff (fs : FS) (p : String) :
    pathExists fs p = true ↔ p ∈ fs.paths :=
  List.elem_iff

theorem pathExists_false_iff (fs : FS) (p : String) :
    pathExists fs p = false ↔ p ∉ fs.paths := by
  rw [← pathExists_iff]
  cases h : pathExists fs p <;> simp

theorem mem_insert_iff (fs : FS) (p q : String) :
    q ∈ (fs.insert p).paths ↔ q = p ∨ q ∈ fs.paths := by
  unfold FS.insert
  by_cases h : pathExists fs p = true
  · rw [if_pos h]
    constructor
    · intro hq
      right
      exact hq
    · rintro (hq | hq)
      · rw [hq]
        exact (pathExists_iff fs p).mp h
      · exact hq
  · rw [if_neg h]
    exact List.mem_cons

theorem applyTransfer_preserves_absent (fs : FS) (mode : TransferMode)
    (s tgt t : String) (h : pathExists fs t = false) (hne : t ≠ tgt) :
    pathExists (applyTransfer fs mode s tgt) t = false := by
  cases mode with
  | move =>
    apply (pathExists_false_iff _ _).mpr
    intro hmem
    rcases (mem_insert_iff _ _ _).mp hmem with h2 | h2
    · exact hne h2
    · exact (pathExists_false_iff fs t).mp h (List.mem_of_mem_erase h2)
  | copyfile =>
    apply (pathExists_false_iff _ _).mpr
    intro hmem
    rcases (mem_insert_iff _ _ _).mp hmem with h2 | h2
    · exact hne h2
    · exact (pathExists_false_iff fs t).mp h h2
  | copytree =>
    apply (pathExists_false_iff _ _).mpr
    intro hmem
    rcases (mem_insert_iff _ _ _).mp hmem with h2 | h2
    · exact hne h2
    · exact (pathExists_false_iff fs t).mp h h2
  | symlink =>
    apply (pathExists_false_iff _ _).mpr
    intro hmem
    rcases (mem_insert_iff _ _ _).mp hmem with h2 | h2
    · exact hne h2
    · exact (pathExists_false_iff fs t).mp h h2

/-! ### Branch equations of `_handle_data` and `stepAll` -/

theorem handle_none (opts : Opts) (fs : FS) (tgt : String) (f : TransferMode) :
    _handle_data opts fs none tgt f = (fs, []) := rfl

theorem handle_exists (opts : Opts) (fs : FS) (s tgt : String) (f : TransferMode)
    (h : pathExists fs tgt = true) :
    _handle_data opts fs (some s) tgt f = (fs, []) := by
  unfold _handle_data
  simp [h]

theorem handle_dry (opts : Opts) (fs : FS) (s tgt : String) (f : TransferMode)
    (h : pathExists fs tgt = false) (hd : opts.dry_run = true) :
    _handle_data opts fs (some s) tgt f = (fs, []) := by
  unfold _handle_data
  simp [h, hd]

theorem handle_go (opts : Opts) (fs : FS) (s tgt : String) (f : TransferMode)
    (h : pathExists fs tgt = false) (hd : opts.dry_run = false) :
    _handle_data opts fs (some s) tgt f =
      (applyTransfer fs f s tgt, [Effect.transfer f s tgt]) := by
  unfold _handle_data
  simp [h, hd]

theorem stepAll_nil {β : Type} (f : FS → β → FS × List Effect) (fs : FS) :
    stepAll f fs [] = (fs, []) := rfl

theorem stepAll_cons {β : Type} (f : FS → β → FS × List Effect) (fs : FS)
    (x : β) (rest : List β) :
    stepAll f fs (x :: rest) =
      ((stepAll f (f fs x).1 rest).1, (f fs x).2 ++ (stepAll f (f fs x).1 rest).2) := rfl

/-- A `stepAll` whose every step is a no-op leaves the state unchanged
and produces no effect. -/
theorem stepAll_noop {β : Type} (f : FS → β → FS × List Effect) (fs : FS)
    (xs : List β) (h : ∀ x ∈ xs, f fs x = (fs, [])) :
    stepAll f fs xs = (fs, []) := by
  induction xs with
  | nil => rfl
  | cons x rest ih =>
    rw [stepAll_cons, h x (List.mem_cons_self x rest)]
    rw [ih (fun y hy => h y (List.mem_cons_of_mem x hy))]
    rfl

/-- A `stepAll` over sources whose targets are fresh and mutually
distinct performs exactly one transfer per source (in order), and
leaves absent any path that is not one of the targets. -/
theorem stepAll_fresh_effects (f : FS → String → FS × List Effect)
    (tgtOf : String → String) (upd : FS → String → FS) (eff : String → Effect)
    (hstep : ∀ fs s, pathExists fs (tgtOf s) = false → f fs s = (upd fs s, [eff s]))
    (hupd : ∀ fs s t, pathExists fs t = false → t ≠ tgtOf s →
      pathExists (upd fs s) t = false)
    (srcs : List String) (fs : FS)
    (hnd : (srcs.map tgtOf).Nodup)
    (habs : ∀ t ∈ srcs.map tgtOf, pathExists fs t = false) :
    (stepAll f fs srcs).2 = srcs.map eff ∧
    (∀ t, pathExists fs t = false → t ∉ srcs.map tgtOf →
      pathExists (stepAll f fs srcs).1 t = false) := by
  induction srcs generalizing fs with
  | nil =>
    refine ⟨rfl, ?_⟩
    intro t ht _
    exact ht
  | cons s rest ih =>
    have h0 : pathExists fs (tgtOf s) = false :=
      habs (tgtOf s) (by simp)
    have hstep0 := hstep fs s h0
    have hnd2 : (rest.map tgtOf).Nodup := (List.nodup_cons.mp hnd).2
    have hhead : tgtOf s ∉ rest.map tgtOf := (List.nodup_cons.mp hnd).1
    have habs2 : ∀ t ∈ rest.map tgtOf, pathExists (upd fs s) t = false := by
      intro t ht
      have h1 : pathExists fs t = false :=
        habs t (List.mem_cons_of_mem _ ht)
      have h2 : t ≠ tgtOf s := by
        intro he
        rw [he] at ht
        exact hhead ht
      exact hupd fs s t h1 h2
    have ihr := ih (upd fs s) hnd2 habs2
    constructor
    · rw [stepAll_cons, hstep0]
      show [eff s] ++ (stepAll f (upd fs s) rest).2 = eff s :: rest.map eff
      rw [ihr.1]
      rfl
    · intro t ht hmem
      rw [stepAll_cons, hstep0]
      show pathExists (stepAll f (upd fs s) rest).1 t = false
      have h2 : t ≠ tgtOf s := fun he => hmem (he ▸ List.mem_cons_self _ _)
      exact ihr.2 t (hupd fs s t ht h2) (fun hc => hmem (List.mem_cons_of_mem _ hc))

/-! ## Claim C8: analysis-result sources and their delivery -/

/-- C8 fails as stated: `fc/1_110215_FCXX_results` exists directly under
the flowcell root and matches the claimed pattern
`{lane}_{fc_date}_{fc_name}*`, yet it is NOT an analysis-result source,
because the source glob is `{lane}_{fc_date}_{fc_name}*.*` (a dot is
required). -/
theorem c8_counterexample :
    (_get_analysis_results
        (Config.mk "FCXX" "110215" "110215_FCXX" "fc" "d" "dest")
        (FS.mk ["fc", "fc/1_110215_FCXX_results"]) 1).1 = [] ∧
    globMatch (pyJoin "fc" ("1_110215_FCXX" ++ "*")) "fc/1_110215_FCXX_results" = true ∧
    "fc/1_110215_FCXX_results" ∈ (FS.mk ["fc", "fc/1_110215_FCXX_results"]).paths := by
  refine ⟨by decide, by decide, by decide⟩

/-- Transfers of `_deliver_data` with fresh, pairwise-distinct targets:
exactly one transfer per analysis file into `outdir` and one per fastqc
entry into `outdir/fastqc`, in source order. -/
theorem deliver_data_fresh_effects (opts : Opts) (fs2 : FS)
    (data fastqc : List String) (outdir : String)
    (hd : opts.dry_run = false)
    (hnd : (data.map (fun s => pyJoin outdir (pyBasename s)) ++
      fastqc.map (fun s => pyJoin (pyJoin outdir "fastqc") (pyBasename s))).Nodup)
    (habs : ∀ t ∈ data.map (fun s => pyJoin outdir (pyBasename s)) ++
        fastqc.map (fun s => pyJoin (pyJoin outdir "fastqc") (pyBasename s)),
      pathExists fs2 t = false) :
    (_deliver_data opts fs2 data fastqc outdir).2 =
      data.map (fun s => Effect.transfer (fileMode opts) s
        (pyJoin outdir (pyBasename s))) ++
      fastqc.map (fun s => Effect.transfer (treeMode opts) s
        (pyJoin (pyJoin outdir "fastqc") (pyBasename s))) := by
  have hnd1 := (List.nodup_append.mp hnd).1
  have hnd2 := (List.nodup_append.mp hnd).2.1
  have hdisj := (List.nodup_append.mp hnd).2.2
  have habs1 : ∀ t ∈ data.map (fun s => pyJoin outdir (pyBasename s)),
      pathExists fs2 t = false :=
    fun t ht => habs t (List.mem_append_left _ ht)
  have H1 := stepAll_fresh_effects
    (fun fs1 src => _handle_data opts fs1 (some src)
      (pyJoin outdir (pyBasename src)) (fileMode opts))
    (fun s => pyJoin outdir (pyBasename s))
    (fun fs1 s => applyTransfer fs1 (fileMode opts) s (pyJoin outdir (pyBasename s)))
    (fun s => Effect.transfer (fileMode opts) s (pyJoin outdir (pyBasename s)))
    (fun fs1 s h => handle_go opts fs1 s (pyJoin outdir (pyBasename s))
      (fileMode opts) h hd)
    (fun fs1 s t h hne2 => applyTransfer_preserves_absent fs1 (fileMode opts) s
      (pyJoin outdir (pyBasename s)) t h hne2)
    data fs2 hnd1 habs1
  have habs2 : ∀ t ∈ fastqc.map (fun s => pyJoin (pyJoin outdir "fastqc") (pyBasename s)),
      pathExists (stepAll (fun fs1 src => _handle_data opts fs1 (some src)
        (pyJoin outdir (pyBasename src)) (fileMode opts)) fs2 data).1 t = false := by
    intro t ht
    exact H1.2 t (habs t (List.mem_append_right _ ht)) (fun hc => hdisj hc ht)
  have H2 := stepAll_fresh_effects
    (fun fs1 src => _handle_data opts fs1 (some src)
      (pyJoin (pyJoin outdir "fastqc") (pyBasename src)) (treeMode opts))
    (fun s => pyJoin (pyJoin outdir "fastqc") (pyBasename s))
    (fun fs1 s => applyTransfer fs1 (treeMode opts) s
      (pyJoin (pyJoin outdir "fastqc") (pyBasename s)))
    (fun s => Effect.transfer (treeMode opts) s
      (pyJoin (pyJoin outdir "fastqc") (pyBasename s)))
    (fun fs1 s h => handle_go opts fs1 s (pyJoin (pyJoin outdir "fastqc") (pyBasename s))
      (treeMode opts) h hd)
    (fun fs1 s t h hne2 => applyTransfer_preserves_absent fs1 (treeMode opts) s
      (pyJoin (pyJoin outdir "fastqc") (pyBasename s)) t h hne2)
    fastqc
    (stepAll (fun fs1 src => _handle_data opts fs1 (some src)
      (pyJoin outdir (pyBasename src)) (fileMode opts)) fs2 data).1
    hnd2 habs2
  show (stepAll (fun fs1 src => _handle_data opts fs1 (some src)
      (pyJoin outdir (pyBasename src)) (fileMode opts)) fs2 data).2 ++
    (stepAll (fun fs1 src => _handle_data opts fs1 (some src)
      (pyJoin (pyJoin outdir "fastqc") (pyBasename src)) (treeMode opts))
      (stepAll (fun fs1 src => _handle_data opts fs1 (some src)
        (pyJoin outdir (pyBasename src)) (fileMode opts)) fs2 data).1 fastqc).2 = _
  rw [H1.1, H2.1]

/-- `process_lane` without fastq-only mode, written out. -/
theorem process_lane_full (opts : Opts) (cfg : Config) (fs : FS) (l : Lane)
    (hof : opts.only_fastq = false) :
    process_lane opts cfg fs l =
      ((fastqDelivery opts
          (_deliver_data opts (_make_dir fs (fcBcDir cfg l.info.lane)).1
            (_get_analysis_results cfg (_make_dir fs (fcBcDir cfg l.info.lane)).1 l.info.lane).1
            (_get_analysis_results cfg (_make_dir fs (fcBcDir cfg l.info.lane)).1 l.info.lane).2
            cfg.data_delivery_dir).1
          l.fq (fcBcDir cfg l.info.lane)).1,
       (_make_dir fs (fcBcDir cfg l.info.lane)).2 ++
       (_deliver_data opts (_make_dir fs (fcBcDir cfg l.info.lane)).1
          (_get_analysis_results cfg (_make_dir fs (fcBcDir cfg l.info.lane)).1 l.info.lane).1
          (_get_analysis_results cfg (_make_dir fs (fcBcDir cfg l.info.lane)).1 l.info.lane).2
          cfg.data_delivery_dir).2 ++
       (fastqDelivery opts
          (_deliver_data opts (_make_dir fs (fcBcDir cfg l.info.lane)).1
            (_get_analysis_results cfg (_make_dir fs (fcBcDir cfg l.info.lane)).1 l.info.lane).1
            (_get_analysis_results cfg (_make_dir fs (fcBcDir cfg l.info.lane)).1 l.info.lane).2
            cfg.data_delivery_dir).1
          l.fq (fcBcDir cfg l.info.lane)).2) := by
  unfold process_lane
  rw [hof]
  rfl

/-- C8 (amended): unless fastq-only mode, the analysis-result sources
are exactly the existing files directly under the flowcell root whose
name matches `{lane}_{fc_date}_{fc_name}*.*` (the glob requires a dot),
and the fastqc sources are exactly the existing entries directly under
the root's `fastqc` subdirectory matching `{lane}_{fc_date}_{fc_name}*`;
`_deliver_data` transfers each analysis file to the data-delivery
directory and each fastqc entry under its `fastqc` subfolder, and the
effects of `process_lane` are exactly the barcode-directory creation,
those transfers, and the fastq deliveries. -/
theorem c8_sources_and_delivery (cfg : Config) (fs : FS) (lane : Nat)
    (hne : cfg.fc_dir.data ≠ [])
    (hlast : cfg.fc_dir.data.getLast? ≠ some '/')
    (hlit : ∀ a ∈ splitCh '/' cfg.fc_dir.data, hasMagicL a = false)
    (hfne : (flowcellStr cfg lane).data ≠ [])
    (hfhead : (flowcellStr cfg lane).data.head? ≠ some '/')
    (hfns : '/' ∉ (flowcellStr cfg lane).data) :
    (∀ p, p ∈ (_get_analysis_results cfg fs lane).1 ↔
        p ∈ fs.paths ∧ ∃ nm : String, p = cfg.fc_dir ++ "/" ++ nm ∧
          '/' ∉ nm.data ∧
          matchComponent (flowcellStr cfg lane ++ "*.*").data nm.data = true) ∧
    (∀ p, p ∈ (_get_analysis_results cfg fs lane).2 ↔
        p ∈ fs.paths ∧ ∃ nm : String, p = pyJoin cfg.fc_dir "fastqc" ++ "/" ++ nm ∧
          '/' ∉ nm.data ∧
          matchComponent (flowcellStr cfg lane ++ "*").data nm.data = true) ∧
    (∀ (opts : Opts) (fs0 : FS) (l : Lane),
      opts.only_fastq = false → opts.dry_run = false →
      ((_get_analysis_results cfg (_make_dir fs0 (fcBcDir cfg l.info.lane)).1 l.info.lane).1.map
          (fun s => pyJoin cfg.data_delivery_dir (pyBasename s)) ++
        (_get_analysis_results cfg (_make_dir fs0 (fcBcDir cfg l.info.lane)).1 l.info.lane).2.map
          (fun s => pyJoin (pyJoin cfg.data_delivery_dir "fastqc") (pyBasename s))).Nodup →
      (∀ t ∈ (_get_analysis_results cfg (_make_dir fs0 (fcBcDir cfg l.info.lane)).1 l.info.lane).1.map
          (fun s => pyJoin cfg.data_delivery_dir (pyBasename s)) ++
        (_get_analysis_results cfg (_make_dir fs0 (fcBcDir cfg l.info.lane)).1 l.info.lane).2.map
          (fun s => pyJoin (pyJoin cfg.data_delivery_dir "fastqc") (pyBasename s)),
        pathExists (_make_dir fs0 (fcBcDir cfg l.info.lane)).1 t = false) →
      (process_lane opts cfg fs0 l).2 =
        (_make_dir fs0 (fcBcDir cfg l.info.lane)).2 ++
        ((_get_analysis_results cfg (_make_dir fs0 (fcBcDir cfg l.info.lane)).1 l.info.lane).1.map
          (fun s => Effect.transfer (fileMode opts) s
            (pyJoin cfg.data_delivery_dir (pyBasename s))) ++
         (_get_analysis_results cfg (_make_dir fs0 (fcBcDir cfg l.info.lane)).1 l.info.lane).2.map
          (fun s => Effect.transfer (treeMode opts) s
            (pyJoin (pyJoin cfg.data_delivery_dir "fastqc") (pyBasename s)))) ++
        (fastqDelivery opts
          (_deliver_data opts (_make_dir fs0 (fcBcDir cfg l.info.lane)).1
            (_get_analysis_results cfg (_make_dir fs0 (fcBcDir cfg l.info.lane)).1 l.info.lane).1
            (_get_analysis_results cfg (_make_dir fs0 (fcBcDir cfg l.info.lane)).1 l.info.lane).2
            cfg.data_delivery_dir).1
          l.fq (fcBcDir cfg l.info.lane)).2) := by
  have hhead_app : ∀ x : List Char,
      ((flowcellStr cfg lane).data ++ x).head? ≠ some '/' := by
    intro x
    rcases hfc : (flowcellStr cfg lane).data with _ | ⟨c, cs⟩
    · exact absurd hfc hfne
    · rw [List.cons_append]
      rw [hfc] at hfhead
      simpa using hfhead
  have hns_app : ∀ x : List Char, '/' ∉ x →
      '/' ∉ ((flowcellStr cfg lane).data ++ x) := by
    intro x hx hmem
    rcases List.mem_append.mp hmem with h1 | h1
    · exact hfns h1
    · exact hx h1
  refine ⟨?_, ?_, ?_⟩
  · intro p
    rw [show (_get_analysis_results cfg fs lane).1 =
      fsGlob fs (pyJoin cfg.fc_dir (flowcellStr cfg lane ++ "*.*")) from rfl]
    unfold fsGlob
    rw [List.mem_filter]
    exact and_congr_right (fun _ =>
      globMatch_under cfg.fc_dir (flowcellStr cfg lane ++ "*.*") p hne hlast hlit
        (by rw [String.data_append]; exact hhead_app _)
        (by rw [String.data_append]; exact hns_app _ (by decide)))
  · intro p
    have hjoin2 : pyJoin cfg.fc_dir "fastqc" = cfg.fc_dir ++ "/" ++ "fastqc" := by
      unfold pyJoin
      rw [if_neg (by decide), if_neg (by simp [hne, hlast])]
    have hdata2 : (pyJoin cfg.fc_dir "fastqc").data =
        cfg.fc_dir.data ++ '/' :: ("fastqc").data := by
      rw [hjoin2, String.data_append, String.data_append]
      simp
    have hne2 : (pyJoin cfg.fc_dir "fastqc").data ≠ [] := by
      rw [hdata2]
      simp
    have hlast2 : (pyJoin cfg.fc_dir "fastqc").data.getLast? ≠ some '/' := by
      rw [hdata2, List.getLast?_append_of_ne_nil cfg.fc_dir.data (by simp)]
      decide
    have hlit2 : ∀ a ∈ splitCh '/' (pyJoin cfg.fc_dir "fastqc").data,
        hasMagicL a = false := by
      rw [hdata2, splitCh_append, splitCh_no_sep '/' ("fastqc").data (by decide)]
      intro a ha
      rcases List.mem_append.mp ha with h1 | h1
      · exact hlit a h1
      · have ha2 : a = ("fastqc").data := by simpa using h1
        rw [ha2]
        decide
    rw [show (_get_analysis_results cfg fs lane).2 =
      fsGlob fs (pyJoin (pyJoin cfg.fc_dir "fastqc") (flowcellStr cfg lane ++ "*")) from rfl]
    unfold fsGlob
    rw [List.mem_filter]
    exact and_congr_right (fun _ =>
      globMatch_under (pyJoin cfg.fc_dir "fastqc") (flowcellStr cfg lane ++ "*") p
        hne2 hlast2 hlit2
        (by rw [String.data_append]; exact hhead_app _)
        (by rw [String.data_append]; exact hns_app _ (by decide)))
  · intro opts fs0 l hof hd hnd habs
    rw [process_lane_full opts cfg fs0 l hof,
      deliver_data_fresh_effects opts (_make_dir fs0 (fcBcDir cfg l.info.lane)).1
        (_get_analysis_results cfg (_make_dir fs0 (fcBcDir cfg l.info.lane)).1 l.info.lane).1
        (_get_analysis_results cfg (_make_dir fs0 (fcBcDir cfg l.info.lane)).1 l.info.lane).2
        cfg.data_delivery_dir hd hnd habs]

/-- Witness for C8: a concrete flowcell directory in which
`fc/1_110215_FCXX_1.sam` is (and `fc/1_110215_FCXX_qc` under `fastqc`
is) picked up by the characterization. -/
theorem c8_sources_witness :
    "fc/1_110215_FCXX_1.sam" ∈
      (_get_analysis_results
        (Config.mk "FCXX" "110215" "110215_FCXX" "fc" "del" "dest")
        (FS.mk ["fc", "fc/1_110215_FCXX_1.sam"]) 1).1 :=
  ((c8_sources_and_delivery
      (Config.mk "FCXX" "110215" "110215_FCXX" "fc" "del" "dest")
      (FS.mk ["fc", "fc/1_110215_FCXX_1.sam"]) 1
      (by decide) (by decide) (by decide) (by decide) (by decide) (by decide)).1
    "fc/1_110215_FCXX_1.sam").mpr
    ⟨by decide, "1_110215_FCXX_1.sam", by decide, by decide, by decide⟩

/-! ## Claim C3: skip-on-existing and idempotence of a re-run

The second run is a no-op because every path the first (copy-mode,
non-dry) run would create already exists.  `Extends fs fs2` says `fs2`
is `fs` with some new paths prepended — the shape of every state change
of a copy-mode run. -/

def Extends (fs fs2 : FS) : Prop := ∃ diff : List String, fs2.paths = diff ++ fs.paths

theorem extends_refl (fs : FS) : Extends fs fs := ⟨[], rfl⟩

theorem extends_trans {a b c : FS} (h1 : Extends a b) (h2 : Extends b c) :
    Extends a c := by
  obtain ⟨d1, hd1⟩ := h1
  obtain ⟨d2, hd2⟩ := h2
  exact ⟨d2 ++ d1, by rw [hd2, hd1, List.append_assoc]⟩

theorem extends_exists {a b : FS} (h : Extends a b) {p : String}
    (hp : pathExists a p = true) : pathExists b p = true := by
  obtain ⟨d, hd⟩ := h
  apply (pathExists_iff b p).mpr
  rw [hd]
  exact List.mem_append_right d ((pathExists_iff a p).mp hp)

theorem insert_extends (fs : FS) (p : String) : Extends fs (fs.insert p) := by
  unfold FS.insert
  by_cases h : pathExists fs p = true
  · rw [if_pos h]
    exact extends_refl fs
  · rw [if_neg h]
    exact ⟨[p], rfl⟩

theorem insert_exists (fs : FS) (p : String) :
    pathExists (fs.insert p) p = true :=
  (pathExists_iff _ _).mpr ((mem_insert_iff fs p p).mpr (Or.inl rfl))

theorem insert_of_exists (fs : FS) (p : String) (h : pathExists fs p = true) :
    fs.insert p = fs := by
  unfold FS.insert
  rw [if_pos h]

theorem applyTransfer_extends (fs : FS) (mode : TransferMode) (s tgt : String)
    (hm : mode ≠ TransferMode.move) :
    Extends fs (applyTransfer fs mode s tgt) := by
  cases mode with
  | move => exact absurd rfl hm
  | copyfile => exact insert_extends fs tgt
  | copytree => exact insert_extends fs tgt
  | symlink => exact insert_extends fs tgt

theorem applyTransfer_exists_tgt (fs : FS) (mode : TransferMode) (s tgt : String) :
    pathExists (applyTransfer fs mode s tgt) tgt = true := by
  cases mode with
  | move => exact insert_exists _ tgt
  | copyfile => exact insert_exists _ tgt
  | copytree => exact insert_exists _ tgt
  | symlink => exact insert_exists _ tgt

theorem make_dir_extends (fs : FS) (d : String) : Extends fs (_make_dir fs d).1 := by
  unfold _make_dir
  by_cases h : pathExists fs d = true
  · rw [if_pos h]
    exact extends_refl fs
  · rw [if_neg h]
    exact insert_extends fs d

theorem make_dir_post (fs : FS) (d : String) :
    pathExists (_make_dir fs d).1 d = true := by
  unfold _make_dir
  by_cases h : pathExists fs d = true
  · rw [if_pos h]
    exact h
  · rw [if_neg h]
    exact insert_exists fs d

theorem make_dir_noop (fs : FS) (d : String) (h : pathExists fs d = true) :
    _make_dir fs d = (fs, []) := by
  unfold _make_dir
  rw [if_pos h]

theorem handle_extends (opts : Opts) (fs : FS) (src : Option String) (tgt : String)
    (f : TransferMode) (hf : f ≠ TransferMode.move) :
    Extends fs (_handle_data opts fs src tgt f).1 := by
  cases src with
  | none => exact extends_refl fs
  | some s =>
    by_cases he : pathExists fs tgt = true
    · rw [handle_exists opts fs s tgt f he]
      exact extends_refl fs
    · have he2 : pathExists fs tgt = false := Bool.eq_false_iff.mpr he
      by_cases hdry : opts.dry_run = true
      · rw [handle_dry opts fs s tgt f he2 hdry]
        exact extends_refl fs
      · rw [handle_go opts fs s tgt f he2 (Bool.eq_false_iff.mpr hdry)]
        exact applyTransfer_extends fs f s tgt hf

theorem handle_post (opts : Opts) (fs : FS) (s tgt : String) (f : TransferMode)
    (hd : opts.dry_run = false) :
    pathExists (_handle_data opts fs (some s) tgt f).1 tgt = true := by
  by_cases he : pathExists fs tgt = true
  · rw [handle_exists opts fs s tgt f he]
    exact he
  · rw [handle_go opts fs s tgt f (Bool.eq_false_iff.mpr he) hd]
    exact applyTransfer_exists_tgt fs f s tgt

theorem handle_noop (opts : Opts) (fs : FS) (src : Option String) (tgt : String)
    (f : TransferMode) (h : pathExists fs tgt = true) :
    _handle_data opts fs src tgt f = (fs, []) := by
  cases src with
  | none => rfl
  | some s => exact handle_exists opts fs s tgt f h

theorem stepAll_extends {β : Type} (f : FS → β → FS × List Effect)
    (hf : ∀ fs x, Extends fs (f fs x).1) (xs : List β) :
    ∀ fs : FS, Extends fs (stepAll f fs xs).1 := by
  induction xs with
  | nil => intro fs; exact extends_refl fs
  | cons x rest ih =>
    intro fs
    rw [stepAll_cons]
    exact extends_trans (hf fs x) (ih (f fs x).1)

/-- A `stepAll` establishes, for each processed element, any
extension-monotone property that a single step establishes. -/
theorem stepAll_establishes {β : Type} (f : FS → β → FS × List Effect)
    (Q : β → FS → Prop)
    (hf : ∀ fs x, Extends fs (f fs x).1)
    (hmono : ∀ x fsa fsb, Extends fsa fsb → Q x fsa → Q x fsb)
    (hpost : ∀ fs x, Q x (f fs x).1)
    (xs : List β) : ∀ (fs : FS), ∀ x ∈ xs, Q x (stepAll f fs xs).1 := by
  induction xs with
  | nil => intro fs x hx; exact absurd hx (by simp)
  | cons y ys ih =>
    intro fs x hx
    rw [stepAll_cons]
    rcases List.mem_cons.mp hx with h1 | h1
    · subst h1
      exact hmono x (f fs x).1 _ (stepAll_extends f hf ys (f fs x).1) (hpost fs x)
    · exact ih (f fs y).1 x h1

theorem fileMode_ne_move (opts : Opts) (hmv : opts.move = false) :
    fileMode opts ≠ TransferMode.move := by
  unfold fileMode
  rw [hmv]
  simp

theorem treeMode_ne_move (opts : Opts) (hmv : opts.move = false) :
    treeMode opts ≠ TransferMode.move := by
  unfold treeMode
  rw [hmv]
  simp

theorem deliver_data_extends (opts : Opts) (fs : FS) (data fastqc : List String)
    (outdir : String) (hmv : opts.move = false) :
    Extends fs (_deliver_data opts fs data fastqc outdir).1 :=
  extends_trans
    (stepAll_extends (fun fs1 src => _handle_data opts fs1 (some src)
        (pyJoin outdir (pyBasename src)) (fileMode opts))
      (fun fs2 x => handle_extends opts fs2 (some x) (pyJoin outdir (pyBasename x))
        (fileMode opts) (fileMode_ne_move opts hmv)) data fs)
    (stepAll_extends (fun fs1 src => _handle_data opts fs1 (some src)
        (pyJoin (pyJoin outdir "fastqc") (pyBasename src)) (treeMode opts))
      (fun fs2 x => handle_extends opts fs2 (some x)
        (pyJoin (pyJoin outdir "fastqc") (pyBasename x))
        (treeMode opts) (treeMode_ne_move opts hmv)) fastqc _)

theorem deliver_data_post (opts : Opts) (fs : FS) (data fastqc : List String)
    (outdir : String) (hd : opts.dry_run = false) (hmv : opts.move = false) :
    (∀ s ∈ data, pathExists (_deliver_data opts fs data fastqc outdir).1
      (pyJoin outdir (pyBasename s)) = true) ∧
    (∀ s ∈ fastqc, pathExists (_deliver_data opts fs data fastqc outdir).1
      (pyJoin (pyJoin outdir "fastqc") (pyBasename s)) = true) := by
  constructor
  · intro s hs
    have h1 := stepAll_establishes
      (fun fs1 src => _handle_data opts fs1 (some src)
        (pyJoin outdir (pyBasename src)) (fileMode opts))
      (fun src fs2 => pathExists fs2 (pyJoin outdir (pyBasename src)) = true)
      (fun fs2 x => handle_extends opts fs2 (some x) (pyJoin outdir (pyBasename x))
        (fileMode opts) (fileMode_ne_move opts hmv))
      (fun x fsa fsb hext hq => extends_exists hext hq)
      (fun fs2 x => handle_post opts fs2 x (pyJoin outdir (pyBasename x))
        (fileMode opts) hd)
      data fs s hs
    exact extends_exists
      (stepAll_extends (fun fs1 src => _handle_data opts fs1 (some src)
          (pyJoin (pyJoin outdir "fastqc") (pyBasename src)) (treeMode opts))
        (fun fs2 x => handle_extends opts fs2 (some x)
          (pyJoin (pyJoin outdir "fastqc") (pyBasename x))
          (treeMode opts) (treeMode_ne_move opts hmv)) fastqc _) h1
  · intro s hs
    exact stepAll_establishes
      (fun fs1 src => _handle_data opts fs1 (some src)
        (pyJoin (pyJoin outdir "fastqc") (pyBasename src)) (treeMode opts))
      (fun src fs2 => pathExists fs2 (pyJoin (pyJoin outdir "fastqc") (pyBasename src)) = true)
      (fun fs2 x => handle_extends opts fs2 (some x)
        (pyJoin (pyJoin outdir "fastqc") (pyBasename x))
        (treeMode opts) (treeMode_ne_move opts hmv))
      (fun x fsa fsb hext hq => extends_exists hext hq)
      (fun fs2 x => handle_post opts fs2 x (pyJoin (pyJoin outdir "fastqc") (pyBasename x))
        (treeMode opts) hd)
      fastqc _ s hs

theorem deliver_data_noop (opts : Opts) (fs : FS) (data fastqc : List String)
    (outdir : String)
    (h1 : ∀ s ∈ data, pathExists fs (pyJoin outdir (pyBasename s)) = true)
    (h2 : ∀ s ∈ fastqc, pathExists fs (pyJoin (pyJoin outdir "fastqc") (pyBasename s)) = true) :
    _deliver_data opts fs data fastqc outdir = (fs, []) := by
  have e1 : stepAll (fun fs1 src => _handle_data opts fs1 (some src)
      (pyJoin outdir (pyBasename src)) (fileMode opts)) fs data = (fs, []) :=
    stepAll_noop _ fs data (fun s hs => handle_noop opts fs (some s)
      (pyJoin outdir (pyBasename s)) (fileMode opts) (h1 s hs))
  have e2 : stepAll (fun fs1 src => _handle_data opts fs1 (some src)
      (pyJoin (pyJoin outdir "fastqc") (pyBasename src)) (treeMode opts)) fs fastqc = (fs, []) :=
    stepAll_noop _ fs fastqc (fun s hs => handle_noop opts fs (some s)
      (pyJoin (pyJoin outdir "fastqc") (pyBasename s)) (treeMode opts) (h2 s hs))
  unfold _deliver_data
  rw [e1]
  show ((stepAll (fun fs1 src => _handle_data opts fs1 (some src)
      (pyJoin (pyJoin outdir "fastqc") (pyBasename src)) (treeMode opts)) fs fastqc).1,
    ([] : List Effect) ++ (stepAll (fun fs1 src => _handle_data opts fs1 (some src)
      (pyJoin (pyJoin outdir "fastqc") (pyBasename src)) (treeMode opts)) fs fastqc).2) = (fs, [])
  rw [e2]
  rfl

theorem deliver_fastq_extends (opts : Opts) (fs : FS) (s t outdir : String)
    (hmv : opts.move = false) :
    Extends fs (_deliver_fastq_file opts fs s t outdir).1 :=
  handle_extends opts fs (some s) (pyJoin outdir t) (fileMode opts)
    (fileMode_ne_move opts hmv)

theorem fastqDelivery_extends (opts : Opts) (fs : FS) (fq : List (List String))
    (outdir : String) (hmv : opts.move = false) :
    Extends fs (fastqDelivery opts fs fq outdir).1 :=
  stepAll_extends _
    (fun fs1 pair => stepAll_extends _
      (fun fs2 x => deliver_fastq_extends opts fs2 x (pyBasename x) outdir hmv)
      pair fs1)
    fq fs

theorem fastqDelivery_post (opts : Opts) (fs : FS) (fq : List (List String))
    (outdir : String) (hd : opts.dry_run = false) (hmv : opts.move = false) :
    ∀ pair ∈ fq, ∀ src ∈ pair,
      pathExists (fastqDelivery opts fs fq outdir).1
        (pyJoin outdir (pyBasename src)) = true := by
  intro pair hp src hs
  exact stepAll_establishes
    (fun fs1 pair2 => stepAll (fun fs2 fq_src =>
      _deliver_fastq_file opts fs2 fq_src (pyBasename fq_src) outdir) fs1 pair2)
    (fun pair2 fs2 => ∀ src2 ∈ pair2,
      pathExists fs2 (pyJoin outdir (pyBasename src2)) = true)
    (fun fs1 pair2 => stepAll_extends _
      (fun fs2 x => deliver_fastq_extends opts fs2 x (pyBasename x) outdir hmv)
      pair2 fs1)
    (fun pair2 fsa fsb hext hq src2 hs2 => extends_exists hext (hq src2 hs2))
    (fun fs1 pair2 => stepAll_establishes
      (fun fs2 fq_src => _deliver_fastq_file opts fs2 fq_src (pyBasename fq_src) outdir)
      (fun src2 fs2 => pathExists fs2 (pyJoin outdir (pyBasename src2)) = true)
      (fun fs2 x => deliver_fastq_extends opts fs2 x (pyBasename x) outdir hmv)
      (fun x fsa fsb hext hq => extends_exists hext hq)
      (fun fs2 x => handle_post opts fs2 x (pyJoin outdir (pyBasename x))
        (fileMode opts) hd)
      pair2 fs1)
    fq fs pair hp src hs

theorem fastqDelivery_noop (opts : Opts) (fs : FS) (fq : List (List String))
    (outdir : String)
    (h : ∀ pair ∈ fq, ∀ src ∈ pair,
      pathExists fs (pyJoin outdir (pyBasename src)) = true) :
    fastqDelivery opts fs fq outdir = (fs, []) := by
  unfold fastqDelivery
  exact stepAll_noop _ fs fq (fun pair hp =>
    stepAll_noop _ fs pair (fun src hs =>
      handle_noop opts fs (some src) (pyJoin outdir (pyBasename src)) (fileMode opts)
        (h pair hp src hs)))

/-- `process_lane` when fastq-only mode is set, written out. -/
theorem process_lane_fq_only (opts : Opts) (cfg : Config) (fs : FS) (l : Lane)
    (hof : opts.only_fastq = true) :
    process_lane opts cfg fs l =
      ((fastqDelivery opts (_make_dir fs (fcBcDir cfg l.info.lane)).1 l.fq
          (fcBcDir cfg l.info.lane)).1,
       (_make_dir fs (fcBcDir cfg l.info.lane)).2 ++
         (fastqDelivery opts (_make_dir fs (fcBcDir cfg l.info.lane)).1 l.fq
           (fcBcDir cfg l.info.lane)).2) := by
  unfold process_lane
  rw [hof]
  simp

theorem process_lane_extends (opts : Opts) (cfg : Config) (fs : FS) (l : Lane)
    (hmv : opts.move = false) :
    Extends fs (process_lane opts cfg fs l).1 := by
  by_cases hof : opts.only_fastq = true
  · rw [process_lane_fq_only opts cfg fs l hof]
    exact extends_trans (make_dir_extends fs (fcBcDir cfg l.info.lane))
      (fastqDelivery_extends opts _ l.fq (fcBcDir cfg l.info.lane) hmv)
  · rw [process_lane_full opts cfg fs l (Bool.eq_false_iff.mpr hof)]
    exact extends_trans (make_dir_extends fs (fcBcDir cfg l.info.lane))
      (extends_trans
        (deliver_data_extends opts _ _ _ cfg.data_delivery_dir hmv)
        (fastqDelivery_extends opts _ l.fq (fcBcDir cfg l.info.lane) hmv))

theorem process_lane_extends_mid (opts : Opts) (cfg : Config) (fs : FS) (l : Lane)
    (hmv : opts.move = false) :
    Extends (_make_dir fs (fcBcDir cfg l.info.lane)).1 (process_lane opts cfg fs l).1 := by
  by_cases hof : opts.only_fastq = true
  · rw [process_lane_fq_only opts cfg fs l hof]
    exact fastqDelivery_extends opts _ l.fq (fcBcDir cfg l.info.lane) hmv
  · rw [process_lane_full opts cfg fs l (Bool.eq_false_iff.mpr hof)]
    exact extends_trans
      (deliver_data_extends opts _ _ _ cfg.data_delivery_dir hmv)
      (fastqDelivery_extends opts _ l.fq (fcBcDir cfg l.info.lane) hmv)

theorem process_lane_post (opts : Opts) (cfg : Config) (fs : FS) (l : Lane)
    (hmv : opts.move = false) (hd : opts.dry_run = false) :
    pathExists (process_lane opts cfg fs l).1 (fcBcDir cfg l.info.lane) = true ∧
    (opts.only_fastq = false →
      (∀ s ∈ (_get_analysis_results cfg (_make_dir fs (fcBcDir cfg l.info.lane)).1 l.info.lane).1,
        pathExists (process_lane opts cfg fs l).1
          (pyJoin cfg.data_delivery_dir (pyBasename s)) = true) ∧
      (∀ s ∈ (_get_analysis_results cfg (_make_dir fs (fcBcDir cfg l.info.lane)).1 l.info.lane).2,
        pathExists (process_lane opts cfg fs l).1
          (pyJoin (pyJoin cfg.data_delivery_dir "fastqc") (pyBasename s)) = true)) ∧
    (∀ pair ∈ l.fq, ∀ src ∈ pair,
      pathExists (process_lane opts cfg fs l).1
        (pyJoin (fcBcDir cfg l.info.lane) (pyBasename src)) = true) := by
  by_cases hof : opts.only_fastq = true
  · rw [process_lane_fq_only opts cfg fs l hof]
    refine ⟨?_, ?_, ?_⟩
    · exact extends_exists
        (fastqDelivery_extends opts _ l.fq (fcBcDir cfg l.info.lane) hmv)
        (make_dir_post fs (fcBcDir cfg l.info.lane))
    · intro hcon
      rw [hof] at hcon
      exact absurd hcon (by simp)
    · intro pair hp src hs
      exact fastqDelivery_post opts _ l.fq (fcBcDir cfg l.info.lane) hd hmv pair hp src hs
  · have hof2 : opts.only_fastq = false := Bool.eq_false_iff.mpr hof
    rw [process_lane_full opts cfg fs l hof2]
    refine ⟨?_, ?_, ?_⟩
    · exact extends_exists
        (extends_trans (deliver_data_extends opts _ _ _ cfg.data_delivery_dir hmv)
          (fastqDelivery_extends opts _ l.fq (fcBcDir cfg l.info.lane) hmv))
        (make_dir_post fs (fcBcDir cfg l.info.lane))
    · intro _
      constructor
      · intro s hs
        exact extends_exists
          (fastqDelivery_extends opts _ l.fq (fcBcDir cfg l.info.lane) hmv)
          ((deliver_data_post opts _ _ _ cfg.data_delivery_dir hd hmv).1 s hs)
      · intro s hs
        exact extends_exists
          (fastqDelivery_extends opts _ l.fq (fcBcDir cfg l.info.lane) hmv)
          ((deliver_data_post opts _ _ _ cfg.data_delivery_dir hd hmv).2 s hs)
    · intro pair hp src hs
      exact fastqDelivery_post opts _ l.fq (fcBcDir cfg l.info.lane) hd hmv pair hp src hs

/-- Everything a re-run of one lane would touch already exists. -/
def LaneCovered (opts : Opts) (cfg : Config) (fs : FS) (l : Lane) : Prop :=
  pathExists fs (fcBcDir cfg l.info.lane) = true ∧
  (opts.only_fastq = false →
    (∀ s ∈ (_get_analysis_results cfg fs l.info.lane).1,
      pathExists fs (pyJoin cfg.data_delivery_dir (pyBasename s)) = true) ∧
    (∀ s ∈ (_get_analysis_results cfg fs l.info.lane).2,
      pathExists fs (pyJoin (pyJoin cfg.data_delivery_dir "fastqc") (pyBasename s)) = true)) ∧
  (∀ pair ∈ l.fq, ∀ src ∈ pair,
    pathExists fs (pyJoin (fcBcDir cfg l.info.lane) (pyBasename src)) = true)

theorem process_lane_noop (opts : Opts) (cfg : Config) (fs : FS) (l : Lane)
    (h : LaneCovered opts cfg fs l) :
    process_lane opts cfg fs l = (fs, []) := by
  have e0 : _make_dir fs (fcBcDir cfg l.info.lane) = (fs, []) :=
    make_dir_noop fs _ h.1
  by_cases hof : opts.only_fastq = true
  · rw [process_lane_fq_only opts cfg fs l hof, e0]
    have e2 : fastqDelivery opts fs l.fq (fcBcDir cfg l.info.lane) = (fs, []) :=
      fastqDelivery_noop opts fs l.fq (fcBcDir cfg l.info.lane) h.2.2
    show ((fastqDelivery opts fs l.fq (fcBcDir cfg l.info.lane)).1,
      ([] : List Effect) ++ (fastqDelivery opts fs l.fq (fcBcDir cfg l.info.lane)).2) = (fs, [])
    rw [e2]
    rfl
  · have hof2 : opts.only_fastq = false := Bool.eq_false_iff.mpr hof
    rw [process_lane_full opts cfg fs l hof2, e0]
    have e1 : _deliver_data opts fs (_get_analysis_results cfg fs l.info.lane).1
        (_get_analysis_results cfg fs l.info.lane).2 cfg.data_delivery_dir = (fs, []) :=
      deliver_data_noop opts fs _ _ cfg.data_delivery_dir
        (h.2.1 hof2).1 (h.2.1 hof2).2
    have e2 : fastqDelivery opts fs l.fq (fcBcDir cfg l.info.lane) = (fs, []) :=
      fastqDelivery_noop opts fs l.fq (fcBcDir cfg l.info.lane) h.2.2
    show ((fastqDelivery opts
        (_deliver_data opts fs (_get_analysis_results cfg fs l.info.lane).1
          (_get_analysis_results cfg fs l.info.lane).2 cfg.data_delivery_dir).1
        l.fq (fcBcDir cfg l.info.lane)).1,
      ([] : List Effect) ++
      (_deliver_data opts fs (_get_analysis_results cfg fs l.info.lane).1
        (_get_analysis_results cfg fs l.info.lane).2 cfg.data_delivery_dir).2 ++
      (fastqDelivery opts
        (_deliver_data opts fs (_get_analysis_results cfg fs l.info.lane).1
          (_get_analysis_results cfg fs l.info.lane).2 cfg.data_delivery_dir).1
        l.fq (fcBcDir cfg l.info.lane)).2) = (fs, [])
    rw [e1]
    show ((fastqDelivery opts fs l.fq (fcBcDir cfg l.info.lane)).1,
      ([] : List Effect) ++ ([] : List Effect) ++
      (fastqDelivery opts fs l.fq (fcBcDir cfg l.info.lane)).2) = (fs, [])
    rw [e2]
    rfl

theorem run_main_cons (opts : Opts) (cfg : Config) (fs : FS) (l : Lane)
    (ls : List Lane) :
    run_main opts cfg fs (l :: ls) =
      ((run_main opts cfg (process_lane opts cfg fs l).1 ls).1,
       (process_lane opts cfg fs l).2 ++
         (run_main opts cfg (process_lane opts cfg fs l).1 ls).2) := rfl

theorem run_main_extends (opts : Opts) (cfg : Config) (hmv : opts.move = false)
    (lanes : List Lane) (fs : FS) :
    Extends fs (run_main opts cfg fs lanes).1 :=
  stepAll_extends _ (fun fs2 l => process_lane_extends opts cfg fs2 l hmv) lanes fs

theorem run_main_noop (opts : Opts) (cfg : Config) (fs : FS) (lanes : List Lane)
    (h : ∀ l ∈ lanes, LaneCovered opts cfg fs l) :
    run_main opts cfg fs lanes = (fs, []) :=
  stepAll_noop _ fs lanes (fun l hl => process_lane_noop opts cfg fs l (h l hl))

theorem make_delivery_alias (opts : Opts) (cfg : Config) (fs : FS)
    (h : pyBasename cfg.data_delivery_dir ≠ cfg.fc_alias) :
    _make_delivery_directory opts cfg fs =
      ((_handle_data opts
          (_make_dir (_make_dir fs cfg.fc_delivery_dir).1 cfg.data_delivery_dir).1
          (some cfg.data_delivery_dir)
          (pyJoin (pyDirname cfg.data_delivery_dir) cfg.fc_alias)
          TransferMode.symlink).1,
       (_make_dir fs cfg.fc_delivery_dir).2 ++
       (_make_dir (_make_dir fs cfg.fc_delivery_dir).1 cfg.data_delivery_dir).2 ++
       (_handle_data opts
          (_make_dir (_make_dir fs cfg.fc_delivery_dir).1 cfg.data_delivery_dir).1
          (some cfg.data_delivery_dir)
          (pyJoin (pyDirname cfg.data_delivery_dir) cfg.fc_alias)
          TransferMode.symlink).2) := by
  unfold _make_delivery_directory
  rw [if_pos h]

theorem make_delivery_no_alias (opts : Opts) (cfg : Config) (fs : FS)
    (h : ¬pyBasename cfg.data_delivery_dir ≠ cfg.fc_alias) :
    _make_delivery_directory opts cfg fs =
      ((_make_dir (_make_dir fs cfg.fc_delivery_dir).1 cfg.data_delivery_dir).1,
       (_make_dir fs cfg.fc_delivery_dir).2 ++
       (_make_dir (_make_dir fs cfg.fc_delivery_dir).1 cfg.data_delivery_dir).2 ++
       ([] : List Effect)) := by
  unfold _make_delivery_directory
  rw [if_neg h]

theorem make_delivery_extends (opts : Opts) (cfg : Config) (fs : FS) :
    Extends fs (_make_delivery_directory opts cfg fs).1 := by
  by_cases h : pyBasename cfg.data_delivery_dir ≠ cfg.fc_alias
  · rw [make_delivery_alias opts cfg fs h]
    exact extends_trans (make_dir_extends fs cfg.fc_delivery_dir)
      (extends_trans (make_dir_extends _ cfg.data_delivery_dir)
        (handle_extends opts _ (some cfg.data_delivery_dir)
          (pyJoin (pyDirname cfg.data_delivery_dir) cfg.fc_alias)
          TransferMode.symlink (by simp)))
  · rw [make_delivery_no_alias opts cfg fs h]
    exact extends_trans (make_dir_extends fs cfg.fc_delivery_dir)
      (make_dir_extends _ cfg.data_delivery_dir)

theorem make_delivery_post (opts : Opts) (cfg : Config) (fs : FS)
    (hd : opts.dry_run = false) :
    pathExists (_make_delivery_directory opts cfg fs).1 cfg.fc_delivery_dir = true ∧
    pathExists (_make_delivery_directory opts cfg fs).1 cfg.data_delivery_dir = true ∧
    (pyBasename cfg.data_delivery_dir ≠ cfg.fc_alias →
      pathExists (_make_delivery_directory opts cfg fs).1
        (pyJoin (pyDirname cfg.data_delivery_dir) cfg.fc_alias) = true) := by
  by_cases h : pyBasename cfg.data_delivery_dir ≠ cfg.fc_alias
  · rw [make_delivery_alias opts cfg fs h]
    refine ⟨?_, ?_, ?_⟩
    · exact extends_exists
        (extends_trans (make_dir_extends _ cfg.data_delivery_dir)
          (handle_extends opts _ (some cfg.data_delivery_dir) _
            TransferMode.symlink (by simp)))
        (make_dir_post fs cfg.fc_delivery_dir)
    · exact extends_exists
        (handle_extends opts _ (some cfg.data_delivery_dir) _
          TransferMode.symlink (by simp))
        (make_dir_post _ cfg.data_delivery_dir)
    · intro _
      exact handle_post opts _ cfg.data_delivery_dir _ TransferMode.symlink hd
  · rw [make_delivery_no_alias opts cfg fs h]
    refine ⟨?_, ?_, ?_⟩
    · exact extends_exists (make_dir_extends _ cfg.data_delivery_dir)
        (make_dir_post fs cfg.fc_delivery_dir)
    · exact make_dir_post _ cfg.data_delivery_dir
    · intro hcon
      exact absurd hcon h

theorem make_delivery_noop (opts : Opts) (cfg : Config) (fs : FS)
    (h1 : pathExists fs cfg.fc_delivery_dir = true)
    (h2 : pathExists fs cfg.data_delivery_dir = true)
    (h3 : pyBasename cfg.data_delivery_dir ≠ cfg.fc_alias →
      pathExists fs (pyJoin (pyDirname cfg.data_delivery_dir) cfg.fc_alias) = true) :
    _make_delivery_directory opts cfg fs = (fs, []) := by
  have e1 : _make_dir fs cfg.fc_delivery_dir = (fs, []) := make_dir_noop fs _ h1
  have e2 : _make_dir fs cfg.data_delivery_dir = (fs, []) := make_dir_noop fs _ h2
  by_cases h : pyBasename cfg.data_delivery_dir ≠ cfg.fc_alias
  · rw [make_delivery_alias opts cfg fs h, e1]
    show ((_handle_data opts (_make_dir fs cfg.data_delivery_dir).1
        (some cfg.data_delivery_dir)
        (pyJoin (pyDirname cfg.data_delivery_dir) cfg.fc_alias)
        TransferMode.symlink).1,
      ([] : List Effect) ++
      (_make_dir fs cfg.data_delivery_dir).2 ++
      (_handle_data opts (_make_dir fs cfg.data_delivery_dir).1
        (some cfg.data_delivery_dir)
        (pyJoin (pyDirname cfg.data_delivery_dir) cfg.fc_alias)
        TransferMode.symlink).2) = (fs, [])
    rw [e2]
    show ((_handle_data opts fs (some cfg.data_delivery_dir)
        (pyJoin (pyDirname cfg.data_delivery_dir) cfg.fc_alias)
        TransferMode.symlink).1,
      ([] : List Effect) ++ ([] : List Effect) ++
      (_handle_data opts fs (some cfg.data_delivery_dir)
        (pyJoin (pyDirname cfg.data_delivery_dir) cfg.fc_alias)
        TransferMode.symlink).2) = (fs, [])
    rw [handle_noop opts fs (some cfg.data_delivery_dir) _ TransferMode.symlink (h3 h)]
    rfl
  · rw [make_delivery_no_alias opts cfg fs h, e1]
    show ((_make_dir fs cfg.data_delivery_dir).1,
      ([] : List Effect) ++ (_make_dir fs cfg.data_delivery_dir).2 ++
        ([] : List Effect)) = (fs, [])
    rw [e2]
    rfl

theorem save_eq (opts : Opts) (fs : FS) (outdir : String)
    (hd : opts.dry_run = false) :
    _save_run_info opts fs outdir =
      (fs.insert (pyJoin outdir "project_run_info.yaml"),
       [Effect.write (pyJoin outdir "project_run_info.yaml")]) := by
  unfold _save_run_info
  rw [if_neg (by simp [hd])]

theorem run_delivery_ri (opts : Opts) (cfg : Config) (fs : FS) (lanes : List Lane)
    (h : opts.only_run_info = true) :
    run_delivery opts cfg fs lanes =
      ((_save_run_info opts (_make_delivery_directory opts cfg fs).1
          cfg.fc_delivery_dir).1,
       (_make_delivery_directory opts cfg fs).2 ++
       (_save_run_info opts (_make_delivery_directory opts cfg fs).1
          cfg.fc_delivery_dir).2) := by
  unfold run_delivery
  rw [if_pos h]

theorem run_delivery_full (opts : Opts) (cfg : Config) (fs : FS) (lanes : List Lane)
    (h : opts.only_run_info = false) :
    run_delivery opts cfg fs lanes =
      ((run_main opts cfg (_save_run_info opts (_make_delivery_directory opts cfg fs).1
          cfg.fc_delivery_dir).1 lanes).1,
       (_make_delivery_directory opts cfg fs).2 ++
       (_save_run_info opts (_make_delivery_directory opts cfg fs).1
          cfg.fc_delivery_dir).2 ++
       (run_main opts cfg (_save_run_info opts (_make_delivery_directory opts cfg fs).1
          cfg.fc_delivery_dir).1 lanes).2) := by
  unfold run_delivery
  rw [if_neg (by simp [h])]

theorem glob_sandwich (pat : String) (fs0 fsa fs1 : FS)
    (h1 : Extends fs0 fsa) (h2 : Extends fsa fs1)
    (heq : fsGlob fs1 pat = fsGlob fs0 pat) :
    fsGlob fsa pat = fsGlob fs0 pat := by
  obtain ⟨d1, hd1⟩ := h1
  obtain ⟨d2, hd2⟩ := h2
  unfold fsGlob at heq ⊢
  rw [hd2, hd1, List.filter_append, List.filter_append] at heq
  have h3 : (List.filter (fun p => globMatch pat p) d2 ++
      List.filter (fun p => globMatch pat p) d1) ++
      List.filter (fun p => globMatch pat p) fs0.paths =
      [] ++ List.filter (fun p => globMatch pat p) fs0.paths := by
    rw [List.append_assoc]
    simpa using heq
  have h4 := List.append_cancel_right h3
  have h5 : List.filter (fun p => globMatch pat p) d1 = [] :=
    (List.append_eq_nil.mp h4).2
  rw [hd1, List.filter_append, h5]
  rfl

theorem ga_sandwich (cfg : Config) (lane : Nat) (fs0 fsa fs1 : FS)
    (h1 : Extends fs0 fsa) (h2 : Extends fsa fs1)
    (heq : _get_analysis_results cfg fs1 lane = _get_analysis_results cfg fs0 lane) :
    _get_analysis_results cfg fsa lane = _get_analysis_results cfg fs0 lane := by
  unfold _get_analysis_results at heq ⊢
  rw [Prod.mk.injEq] at heq ⊢
  exact ⟨glob_sandwich _ fs0 fsa fs1 h1 h2 heq.1,
    glob_sandwich _ fs0 fsa fs1 h1 h2 heq.2⟩

/-- After a copy-mode, non-dry run of `run_main`, every lane is covered:
its barcode directory, the targets of every analysis/fastqc source it
would glob, and the targets of its fastq files all exist — provided the
run did not create new glob matches (the stability hypothesis). -/
theorem run_main_covers (opts : Opts) (cfg : Config)
    (hmv : opts.move = false) (hd : opts.dry_run = false) :
    ∀ (lanes : List Lane) (fsA : FS),
      (∀ l ∈ lanes,
        _get_analysis_results cfg (run_main opts cfg fsA lanes).1 l.info.lane =
          _get_analysis_results cfg fsA l.info.lane) →
      ∀ l ∈ lanes, LaneCovered opts cfg (run_main opts cfg fsA lanes).1 l := by
  intro lanes
  induction lanes with
  | nil =>
    intro fsA _ l hl
    exact absurd hl (by simp)
  | cons y ys ih =>
    intro fsA hstab l hl
    have hrm : (run_main opts cfg fsA (y :: ys)).1 =
        (run_main opts cfg (process_lane opts cfg fsA y).1 ys).1 := rfl
    rw [hrm] at hstab ⊢
    have extMid : Extends fsA (_make_dir fsA (fcBcDir cfg y.info.lane)).1 :=
      make_dir_extends _ _
    have extPL : Extends fsA (process_lane opts cfg fsA y).1 :=
      process_lane_extends opts cfg fsA y hmv
    have extPLmid : Extends (_make_dir fsA (fcBcDir cfg y.info.lane)).1
        (process_lane opts cfg fsA y).1 :=
      process_lane_extends_mid opts cfg fsA y hmv
    have extRM : Extends (process_lane opts cfg fsA y).1
        (run_main opts cfg (process_lane opts cfg fsA y).1 ys).1 :=
      run_main_extends opts cfg hmv ys _
    rcases List.mem_cons.mp hl with hly | hly
    · subst hly
      have hpost := process_lane_post opts cfg fsA l hmv hd
      have hgaB := hstab l (List.mem_cons_self l ys)
      have hgaMid : _get_analysis_results cfg
          (_make_dir fsA (fcBcDir cfg l.info.lane)).1 l.info.lane =
          _get_analysis_results cfg fsA l.info.lane :=
        ga_sandwich cfg l.info.lane fsA _ _ extMid
          (extends_trans extPLmid extRM) hgaB
      refine ⟨?_, ?_, ?_⟩
      · exact extends_exists extRM hpost.1
      · intro hof
        constructor
        · intro s hs
          rw [hgaB, ← hgaMid] at hs
          exact extends_exists extRM ((hpost.2.1 hof).1 s hs)
        · intro s hs
          rw [hgaB, ← hgaMid] at hs
          exact extends_exists extRM ((hpost.2.1 hof).2 s hs)
      · intro pair hp src hs
        exact extends_exists extRM (hpost.2.2 pair hp src hs)
    · have hstab2 : ∀ l2 ∈ ys,
          _get_analysis_results cfg
            (run_main opts cfg (process_lane opts cfg fsA y).1 ys).1 l2.info.lane =
          _get_analysis_results cfg (process_lane opts cfg fsA y).1 l2.info.lane := by
        intro l2 h2
        have hB := hstab l2 (List.mem_cons_of_mem y h2)
        have hA2 : _get_analysis_results cfg (process_lane opts cfg fsA y).1 l2.info.lane =
            _get_analysis_results cfg fsA l2.info.lane :=
          ga_sandwich cfg l2.info.lane fsA _ _ extPL extRM hB
        exact hB.trans hA2.symm
      exact ih (process_lane opts cfg fsA y).1 hstab2 l hly

/-- A whole `run_delivery` over a state that already contains everything
it would create is a no-op except for rewriting the run-info file. -/
theorem run_delivery_noop_general (opts : Opts) (cfg : Config) (fs1 : FS)
    (lanes : List Lane)
    (hd : opts.dry_run = false)
    (h1 : pathExists fs1 cfg.fc_delivery_dir = true)
    (h2 : pathExists fs1 cfg.data_delivery_dir = true)
    (h3 : pyBasename cfg.data_delivery_dir ≠ cfg.fc_alias →
      pathExists fs1 (pyJoin (pyDirname cfg.data_delivery_dir) cfg.fc_alias) = true)
    (h4 : pathExists fs1 (pyJoin cfg.fc_delivery_dir "project_run_info.yaml") = true)
    (h5 : opts.only_run_info = false → ∀ l ∈ lanes, LaneCovered opts cfg fs1 l) :
    run_delivery opts cfg fs1 lanes =
      (fs1, [Effect.write (pyJoin cfg.fc_delivery_dir "project_run_info.yaml")]) := by
  have e1 : _make_delivery_directory opts cfg fs1 = (fs1, []) :=
    make_delivery_noop opts cfg fs1 h1 h2 h3
  have e2 : _save_run_info opts fs1 cfg.fc_delivery_dir =
      (fs1, [Effect.write (pyJoin cfg.fc_delivery_dir "project_run_info.yaml")]) := by
    rw [save_eq opts fs1 cfg.fc_delivery_dir hd,
      insert_of_exists fs1 (pyJoin cfg.fc_delivery_dir "project_run_info.yaml") h4]
  by_cases hori : opts.only_run_info = true
  · rw [run_delivery_ri opts cfg fs1 lanes hori, e1]
    show ((_save_run_info opts fs1 cfg.fc_delivery_dir).1,
      ([] : List Effect) ++ (_save_run_info opts fs1 cfg.fc_delivery_dir).2) = _
    rw [e2]
    rfl
  · have hori2 : opts.only_run_info = false := Bool.eq_false_iff.mpr hori
    rw [run_delivery_full opts cfg fs1 lanes hori2, e1]
    show ((run_main opts cfg (_save_run_info opts fs1 cfg.fc_delivery_dir).1 lanes).1,
      ([] : List Effect) ++ (_save_run_info opts fs1 cfg.fc_delivery_dir).2 ++
      (run_main opts cfg (_save_run_info opts fs1 cfg.fc_delivery_dir).1 lanes).2) = _
    rw [e2]
    show ((run_main opts cfg fs1 lanes).1,
      ([] : List Effect) ++
        [Effect.write (pyJoin cfg.fc_delivery_dir "project_run_info.yaml")] ++
      (run_main opts cfg fs1 lanes).2) = _
    rw [run_main_noop opts cfg fs1 lanes (h5 hori2)]
    rfl

/-- C3: `_handle_data` skips (warn only, no transfer call, no error,
state unchanged) whenever the target exists; consequently re-running a
(copy-mode, non-dry) delivery against the destination it just produced
changes nothing and performs zero transfers — the only effect of the
second run is rewriting `project_run_info.yaml` with identical content,
which `_save_run_info` always does.  The stability hypothesis says the
run did not create files matched by its own source globs
(i.e. the delivery tree does not alias into the flowcell glob scope),
which is what "running against the same destination" presupposes. -/
theorem c3_skip_existing_and_idempotent :
    (∀ (opts : Opts) (fs : FS) (s tgt : String) (f : TransferMode),
      pathExists fs tgt = true → _handle_data opts fs (some s) tgt f = (fs, [])) ∧
    (∀ (opts : Opts) (cfg : Config) (fs0 : FS) (lanes : List Lane),
      opts.move = false → opts.dry_run = false →
      (∀ l ∈ lanes,
        _get_analysis_results cfg (run_delivery opts cfg fs0 lanes).1 l.info.lane =
          _get_analysis_results cfg fs0 l.info.lane) →
      run_delivery opts cfg (run_delivery opts cfg fs0 lanes).1 lanes =
        ((run_delivery opts cfg fs0 lanes).1,
         [Effect.write (pyJoin cfg.fc_delivery_dir "project_run_info.yaml")])) := by
  constructor
  · intro opts fs s tgt f h
    exact handle_exists opts fs s tgt f h
  · intro opts cfg fs0 lanes hmv hd hstab
    have hmdp := make_delivery_post opts cfg fs0 hd
    by_cases hori : opts.only_run_info = true
    · have hfs1 : (run_delivery opts cfg fs0 lanes).1 =
          ((_make_delivery_directory opts cfg fs0).1).insert
            (pyJoin cfg.fc_delivery_dir "project_run_info.yaml") := by
        rw [run_delivery_ri opts cfg fs0 lanes hori]
        show (_save_run_info opts (_make_delivery_directory opts cfg fs0).1
          cfg.fc_delivery_dir).1 = _
        rw [save_eq opts _ _ hd]
      have hins : Extends (_make_delivery_directory opts cfg fs0).1
          (((_make_delivery_directory opts cfg fs0).1).insert
            (pyJoin cfg.fc_delivery_dir "project_run_info.yaml")) :=
        insert_extends _ _
      apply run_delivery_noop_general opts cfg _ lanes hd
      · rw [hfs1]
        exact extends_exists hins hmdp.1
      · rw [hfs1]
        exact extends_exists hins hmdp.2.1
      · intro hali
        rw [hfs1]
        exact extends_exists hins (hmdp.2.2 hali)
      · rw [hfs1]
        exact insert_exists _ _
      · intro hcon
        rw [hori] at hcon
        exact absurd hcon (by simp)
    · have hori2 : opts.only_run_info = false := Bool.eq_false_iff.mpr hori
      have hfs1 : (run_delivery opts cfg fs0 lanes).1 =
          (run_main opts cfg
            (((_make_delivery_directory opts cfg fs0).1).insert
              (pyJoin cfg.fc_delivery_dir "project_run_info.yaml")) lanes).1 := by
        rw [run_delivery_full opts cfg fs0 lanes hori2]
        show (run_main opts cfg (_save_run_info opts
          (_make_delivery_directory opts cfg fs0).1 cfg.fc_delivery_dir).1 lanes).1 = _
        rw [save_eq opts _ _ hd]
      have hins : Extends (_make_delivery_directory opts cfg fs0).1
          (((_make_delivery_directory opts cfg fs0).1).insert
            (pyJoin cfg.fc_delivery_dir "project_run_info.yaml")) :=
        insert_extends _ _
      have hrmExt : Extends
          (((_make_delivery_directory opts cfg fs0).1).insert
            (pyJoin cfg.fc_delivery_dir "project_run_info.yaml"))
          (run_main opts cfg
            (((_make_delivery_directory opts cfg fs0).1).insert
              (pyJoin cfg.fc_delivery_dir "project_run_info.yaml")) lanes).1 :=
        run_main_extends opts cfg hmv lanes _
      have hext0W : Extends fs0
          (((_make_delivery_directory opts cfg fs0).1).insert
            (pyJoin cfg.fc_delivery_dir "project_run_info.yaml")) :=
        extends_trans (make_delivery_extends opts cfg fs0) hins
      have hstabW : ∀ l ∈ lanes,
          _get_analysis_results cfg
            (run_main opts cfg
              (((_make_delivery_directory opts cfg fs0).1).insert
                (pyJoin cfg.fc_delivery_dir "project_run_info.yaml")) lanes).1
            l.info.lane =
          _get_analysis_results cfg
            (((_make_delivery_directory opts cfg fs0).1).insert
              (pyJoin cfg.fc_delivery_dir "project_run_info.yaml"))
            l.info.lane := by
        intro l hl
        have hB := hstab l hl
        rw [hfs1] at hB
        have hW := ga_sandwich cfg l.info.lane fs0 _ _ hext0W hrmExt hB
        exact hB.trans hW.symm
      have hcov := run_main_covers opts cfg hmv hd lanes _ hstabW
      apply run_delivery_noop_general opts cfg _ lanes hd
      · rw [hfs1]
        exact extends_exists (extends_trans hins hrmExt) hmdp.1
      · rw [hfs1]
        exact extends_exists (extends_trans hins hrmExt) hmdp.2.1
      · intro hali
        rw [hfs1]
        exact extends_exists (extends_trans hins hrmExt) (hmdp.2.2 hali)
      · rw [hfs1]
        exact extends_exists hrmExt (insert_exists _ _)
      · intro _ l hl
        rw [hfs1]
        exact hcov l hl

/-- Witness for C3: a concrete copy-mode delivery re-run over the state
it produced is exactly a no-op plus the run-info rewrite. -/
theorem c3_idempotent_witness :
    run_delivery (Opts.mk false false false false false)
        (Config.mk "FCXX" "110215" "110215_FCXX" "fc" "proj/110215_FCXX"
          "proj/110215_FCXX")
        ((run_delivery (Opts.mk false false false false false)
          (Config.mk "FCXX" "110215" "110215_FCXX" "fc" "proj/110215_FCXX"
            "proj/110215_FCXX")
          (FS.mk ["fc", "fc/1_110215_FCXX_1.sam"])
          [Lane.mk (LaneInfo.mk 1 "A") [["fc/f_1.fastq"]]]).1)
        [Lane.mk (LaneInfo.mk 1 "A") [["fc/f_1.fastq"]]] =
      ((run_delivery (Opts.mk false false false false false)
          (Config.mk "FCXX" "110215" "110215_FCXX" "fc" "proj/110215_FCXX"
            "proj/110215_FCXX")
          (FS.mk ["fc", "fc/1_110215_FCXX_1.sam"])
          [Lane.mk (LaneInfo.mk 1 "A") [["fc/f_1.fastq"]]]).1,
       [Effect.write (pyJoin "proj/110215_FCXX" "project_run_info.yaml")]) :=
  c3_skip_existing_and_idempotent.2
    (Opts.mk false false false false false)
    (Config.mk "FCXX" "110215" "110215_FCXX" "fc" "proj/110215_FCXX"
      "proj/110215_FCXX")
    (FS.mk ["fc", "fc/1_110215_FCXX_1.sam"])
    [Lane.mk (LaneInfo.mk 1 "A") [["fc/f_1.fastq"]]]
    rfl rfl (by decide)
